import Mathlib

/-!
# go-flash: the STM32 serial bootloader driver

A shallow embedding of `src/flash/*.go`.

* Bytes are natural numbers; a value taken from a wider integer is reduced
  modulo 256 at the place where the source converts it with `byte(...)`.
* `uint32` arithmetic is arithmetic modulo `2 ^ 32`.
* The session (`Microcontroller`) is passed explicitly.  Besides the fields of
  the Go struct it carries `wire`, the log of every buffer the serial port has
  accepted, oldest first.
* `ttyRx` stands for the receive channel together with everything the
  background reader will still push into it: it is the sequence of bytes the
  device delivers, in arrival order.  A read that finds it empty is a read
  whose timer fires.
* `ReadN` is the reading of `ReadN(n, to)` with time abstracted away: a byte of
  `ttyRx` is a byte that arrives within the window of the `select` that takes
  it.  `ReadN.timed` is the same method with the arrival times and the timer
  of every `select` made explicit.
* `Open` stands for the reader `go mc.rx()` by the bytes it pushes.  The error
  exit of the reader, with its deferred `mc.Close()`, is the transition
  `rx.onError`; `FlashPayload.readerFails` and `Identify.readerFails` are the
  runs of the two methods in which the reader fails while the call runs.
* A Go panic is the `Res.panic` outcome.
-/

namespace Flash

/-! ## util.go -/

/-- The function `checksum` of util.go: the STM XOR checksum of a buffer. -/
def checksum : List Nat → Nat
  | [] => 0x00
  | [x] => x
  | x :: rest => rest.foldl (fun s b => s ^^^ b) x

/-- The generic `min` of util.go, at type `int`, on non-negative values. -/
def min (a b : Nat) : Nat :=
  if a < b then a else b

/-! ## Errors (github.com/pkg/errors) -/

/-- An error value.  `new msg` is `errors.New(msg)`, `sys msg` an error that
comes from the gpio or serial library, `wrap cause msg` is what
`errors.Wrap(cause, msg)` returns for a non-nil cause. -/
inductive Err where
  | new (msg : String)
  | sys (msg : String)
  | wrap (cause : Err) (msg : String)
  deriving DecidableEq, Repr

/-- The function `errors.Cause`: the innermost error of a chain of wraps. -/
def Err.Cause : Err → Err
  | Err.wrap cause _ => Err.Cause cause
  | e => e

/-- The function `errors.Wrap`: nil stays nil, an error is wrapped. -/
def Wrap (err : Option Err) (msg : String) : Option Err :=
  match err with
  | none => none
  | some e => some (Err.wrap e msg)

/-! ## serial.go, stm32.go: constants -/

def ErrTimeout : Err := Err.new "timed out reading from microcontroller"
def ErrClosed : Err := Err.new "serial port is closed"

def b_STM_ACK : Nat := 0x79
def b_STM_NACK : Nat := 0x1f
def b_STM_SYNC : Nat := 0x7f
def stmFlashBlockMax : Nat := 256

/-- The read timeout, five seconds in nanoseconds. -/
def STMTimeout : Nat := 5 * 1000000000

def ErrSTMFailedToAck : Err := Err.new "failed to read ack or nack from stm microcontroller"
def ErrSTMNACK : Err := Err.new "received nack from stm microcontroller"

/-- The type `CommandCode`, an `int`. -/
abbrev CommandCode := Int

def CommandCodeSync : CommandCode := -1
def CommandCodeGet : CommandCode := 0
def CommandCodeGetVersion : CommandCode := 1
def CommandCodeGetID : CommandCode := 2
def CommandCodeReadMemory : CommandCode := 3
def CommandCodeGo : CommandCode := 4
def CommandCodeWriteMemory : CommandCode := 5
def CommandCodeErase : CommandCode := 6
def CommandCodeWriteProtect : CommandCode := 7
def CommandCodeWriteUnprotect : CommandCode := 8
def CommandCodeReadoutProtect : CommandCode := 9
def CommandCodeReadoutUnprotect : CommandCode := 10

/-- The type `commandCodeMap`, a Go map, as an association list: the first
pair with a key is the entry of that key. -/
abbrev commandCodeMap := List (CommandCode × Nat)

/-- The map read `m[c]` with its `ok` flag. -/
def commandCodeMap.get (m : commandCodeMap) (c : CommandCode) : Option Nat :=
  List.lookup c m

/-- The map write `m[c] = b`. -/
def commandCodeMap.set (m : commandCodeMap) (c : CommandCode) (b : Nat) : commandCodeMap :=
  (c, b) :: m

def defaultCmdCodeMap : commandCodeMap :=
  [ (CommandCodeGet, 0x00),
    (CommandCodeGetVersion, 0x01),
    (CommandCodeGetID, 0x02),
    (CommandCodeReadMemory, 0x11),
    (CommandCodeGo, 0x21),
    (CommandCodeWriteMemory, 0x31),
    (CommandCodeErase, 0x43),
    (CommandCodeWriteProtect, 0x63),
    (CommandCodeWriteUnprotect, 0x73),
    (CommandCodeReadoutProtect, 0x82),
    (CommandCodeReadoutUnprotect, 0x92) ]

/-! ## mcu.go: the session -/

/-- An open serial port handle.  `writesLeft` is how many further writes the
operating system accepts before one fails; `none` is a port that accepts
every write. -/
structure Port where
  writesLeft : Option Nat
  deriving DecidableEq, Repr

/-- The struct `Microcontroller`.  A pin is `none` when it is released and
`some level` when it is driven.  `wire` is the log of the buffers accepted by
the serial port. -/
structure Microcontroller where
  pinPower : Option Bool
  pinBoot0 : Option Bool
  pinBoot1 : Option Bool
  stmCmdCodes : commandCodeMap
  stmBootloaderVersion : Nat
  ttyPort : Option Port
  ttyRx : List Nat
  ttyActive : Bool
  identity : String
  wire : List (List Nat)
  deriving DecidableEq, Repr

/-- The outcome of running a method on a session: it returns a value, or it
panics; both leave a session state behind. -/
inductive Res (α : Type) where
  | ret (val : α) (mc : Microcontroller)
  | panic (msg : String) (mc : Microcontroller)
  deriving DecidableEq, Repr

/-- The session state an outcome leaves behind. -/
def Res.state {α : Type} : Res α → Microcontroller
  | Res.ret _ mc => mc
  | Res.panic _ mc => mc

/-- What the outside world does during one call of `Open`: the results of the
three `gpio.NewOutput` calls and of `serial.Open`, and the bytes the device
sends over the newly opened port, in arrival order. -/
structure World where
  gpioPower : Option Err
  gpioBoot0 : Option Err
  gpioBoot1 : Option Err
  serial : Except Err Port
  incoming : List Nat

/-! ## serial.go -/

def IsOpen (mc : Microcontroller) : Bool :=
  mc.ttyPort.isSome

/-- The method `ttyPort.Write` of the serial library. -/
def Port.Write (p : Port) : Except Err Port :=
  match p.writesLeft with
  | none => Except.ok p
  | some 0 => Except.error (Err.sys "serial port write failed")
  | some (k + 1) => Except.ok { writesLeft := some k }

/-- The loop `for _, b := range bs` of `Write`. -/
def Write.loop : List (List Nat) → Microcontroller → Res (Option Err)
  | [], mc => Res.ret none mc
  | b :: rest, mc =>
    match mc.ttyPort with
    | none => Res.panic "invalid memory address or nil pointer dereference" mc
    | some p =>
      match p.Write with
      | Except.error e => Res.ret (some e) mc
      | Except.ok p1 =>
        Write.loop rest { mc with ttyPort := some p1, wire := mc.wire ++ [b] }

/-- The method `Write(bs ...[]byte)`. -/
def Write (bs : List (List Nat)) (mc : Microcontroller) : Res (Option Err) :=
  if !IsOpen mc then Res.ret (some ErrClosed) mc
  else if bs.length = 0 then Res.panic "must provide at least one []byte" mc
  else Write.loop bs mc

/-- The loop of `ReadN`: `k` bytes are still to be read, `acc` holds the bytes
read so far.  An empty queue is the case `<-time.After(to)`. -/
def ReadN.loop : Nat → List Nat → Microcontroller → Res (Except Err (List Nat))
  | 0, acc, mc => Res.ret (Except.ok acc) mc
  | k + 1, acc, mc =>
    match mc.ttyRx with
    | [] => Res.ret (Except.error ErrTimeout) mc
    | b :: q => ReadN.loop k (acc ++ [b]) { mc with ttyRx := q }

/-- The method `ReadN(n, to)`.  A negative `n` makes `make([]byte, n)` panic.
Time is abstracted away here: see `ReadN.timed` for the timer of each
`select`. -/
def ReadN (n : Int) (_to : Nat) (mc : Microcontroller) : Res (Except Err (List Nat)) :=
  if !IsOpen mc then Res.ret (Except.error ErrClosed) mc
  else if n < 0 then Res.panic "makeslice: len out of range" mc
  else ReadN.loop n.toNat [] mc

/-! ## stm32.go -/

/-- The GPIO sequence `enterSTBL`; the sleeps take no part in the state. -/
def enterSTBL (mc : Microcontroller) : Microcontroller :=
  let mc1 := { mc with pinPower := some false }
  let mc2 := { mc1 with pinBoot0 := some true }
  let mc3 := { mc2 with pinBoot1 := some false }
  { mc3 with pinPower := some true }

/-- The GPIO sequence `exitSTBL`. -/
def exitSTBL (mc : Microcontroller) : Microcontroller :=
  let mc1 := { mc with pinPower := some false }
  let mc2 := { mc1 with pinBoot0 := some false }
  let mc3 := { mc2 with pinBoot1 := some false }
  { mc3 with pinPower := some true }

/-- The method `stmCommandSequence`; `none` is the panic
"unknown command code". -/
def stmCommandSequence (mc : Microcontroller) (c : CommandCode) : Option (List Nat) :=
  if c = CommandCodeSync then some [b_STM_SYNC]
  else
    match mc.stmCmdCodes.get c with
    | some cmdb => some [cmdb, 0xff ^^^ cmdb]
    | none =>
      match defaultCmdCodeMap.get c with
      | some cmdb => some [cmdb, 0xff ^^^ cmdb]
      | none => none

/-- The method `stmReadWithLength`. -/
def stmReadWithLength (mc : Microcontroller) : Res (Except Err (List Nat)) :=
  match ReadN 1 STMTimeout mc with
  | Res.panic msg mc1 => Res.panic msg mc1
  | Res.ret (Except.error err) mc1 => Res.ret (Except.error err) mc1
  | Res.ret (Except.ok n) mc1 =>
    match n with
    | [n0] => ReadN (Int.ofNat n0 + 1) STMTimeout mc1
    | _ => Res.ret (Except.error (Err.new "could not get length from stm microcontroller")) mc1

/-- The method `stmWriteWithChecksum`. -/
def stmWriteWithChecksum (bs : List Nat) (mc : Microcontroller) : Res (Option Err) :=
  let cs := checksum bs
  Write [bs ++ [cs]] mc

/-- The method `stmWriteWithNAndChecksum`; `byte(len(bs) - 1)` keeps the low
eight bits of the difference. -/
def stmWriteWithNAndChecksum (bs : List Nat) (mc : Microcontroller) : Res (Option Err) :=
  let n := (((bs.length : Int) - 1) % 256).toNat
  stmWriteWithChecksum ([n] ++ bs) mc

/-- The method `stmReadAckOrNack`.  The bare `return` hands back the `err` of
`ReadN`, which is nil in the branch `len(bs) != 1`. -/
def stmReadAckOrNack (mc : Microcontroller) : Res (Option Err) :=
  match ReadN 1 STMTimeout mc with
  | Res.panic msg mc1 => Res.panic msg mc1
  | Res.ret (Except.error err) mc1 => Res.ret (some err) mc1
  | Res.ret (Except.ok bs) mc1 =>
    match bs with
    | [b] =>
      if b = b_STM_ACK then Res.ret none mc1
      else if b = b_STM_NACK then Res.ret (some ErrSTMNACK) mc1
      else Res.ret (some ErrSTMFailedToAck) mc1
    | _ => Res.ret none mc1

/-! ## stm32_cmd.go -/

/-- The method `stmExecCmd`. -/
def stmExecCmd (c : CommandCode) (mc : Microcontroller) : Res (Option Err) :=
  match stmCommandSequence mc c with
  | none => Res.panic "unknown command code" mc
  | some seq =>
    match Write [seq] mc with
    | Res.panic msg mc1 => Res.panic msg mc1
    | Res.ret (some err) mc1 => Res.ret (some err) mc1
    | Res.ret none mc1 =>
      match stmReadAckOrNack mc1 with
      | Res.panic msg mc2 => Res.panic msg mc2
      | Res.ret (some err) mc2 => Res.ret (some err) mc2
      | Res.ret none mc2 => Res.ret none mc2

/-- The method `stmCmdSync`. -/
def stmCmdSync (mc : Microcontroller) : Res (Option Err) :=
  stmExecCmd CommandCodeSync mc

/-- The loop of `stmCmdGet`: `k` iterations are left, `i` is the loop
variable; `bs[i+1]` is a checked index. -/
def stmCmdGet.loop (bs : List Nat) : Nat → Nat → Microcontroller → Res (Option Err)
  | 0, _, mc => Res.ret none mc
  | k + 1, i, mc =>
    match bs[i + 1]? with
    | none => Res.panic "index out of range" mc
    | some b =>
      stmCmdGet.loop bs k (i + 1)
        { mc with stmCmdCodes := mc.stmCmdCodes.set (Int.ofNat i) b }

/-- The method `stmCmdGet`.  The loop runs while `i < len(bs)-1`, that is
`len(bs) - 1` times when `bs` is not empty; an empty `bs` panics at `bs[0]`. -/
def stmCmdGet (mc : Microcontroller) : Res (Option Err) :=
  match stmExecCmd CommandCodeGet mc with
  | Res.panic msg mc1 => Res.panic msg mc1
  | Res.ret (some err) mc1 => Res.ret (some err) mc1
  | Res.ret none mc1 =>
    match stmReadWithLength mc1 with
    | Res.panic msg mc2 => Res.panic msg mc2
    | Res.ret (Except.error err) mc2 => Res.ret (some err) mc2
    | Res.ret (Except.ok bs) mc2 =>
      match stmReadAckOrNack mc2 with
      | Res.panic msg mc3 => Res.panic msg mc3
      | Res.ret (some err) mc3 => Res.ret (some err) mc3
      | Res.ret none mc3 =>
        match bs[0]? with
        | none => Res.panic "index out of range" mc3
        | some v =>
          stmCmdGet.loop bs (bs.length - 1) 0 { mc3 with stmBootloaderVersion := v }

/-- One lowercase hexadecimal digit. -/
def hexDigit (d : Nat) : Char :=
  "0123456789abcdef".toList.getD d '0'

/-- The function `hex.EncodeToString`: two lowercase digits for each byte. -/
def hexEncodeToString (bs : List Nat) : String :=
  String.mk (bs.flatMap (fun b => [hexDigit (b / 16 % 16), hexDigit (b % 16)]))

/-- The method `stmCmdGetId`. -/
def stmCmdGetId (mc : Microcontroller) : Res (String × Option Err) :=
  match stmExecCmd CommandCodeGetID mc with
  | Res.panic msg mc1 => Res.panic msg mc1
  | Res.ret (some err) mc1 => Res.ret ("", some err) mc1
  | Res.ret none mc1 =>
    match stmReadWithLength mc1 with
    | Res.panic msg mc2 => Res.panic msg mc2
    | Res.ret (Except.error err) mc2 => Res.ret ("", some err) mc2
    | Res.ret (Except.ok bs) mc2 =>
      match stmReadAckOrNack mc2 with
      | Res.panic msg mc3 => Res.panic msg mc3
      | Res.ret (some err) mc3 => Res.ret ("", some err) mc3
      | Res.ret none mc3 => Res.ret (hexEncodeToString bs, none) mc3

/-- The method `stmCmdEraseMemory`. -/
def stmCmdEraseMemory (mc : Microcontroller) : Res (Option Err) :=
  match stmExecCmd CommandCodeErase mc with
  | Res.panic msg mc1 => Res.panic msg mc1
  | Res.ret (some err) mc1 => Res.ret (some err) mc1
  | Res.ret none mc1 =>
    match Write [[0xff, 0x00]] mc1 with
    | Res.panic msg mc2 => Res.panic msg mc2
    | Res.ret (some err) mc2 => Res.ret (some err) mc2
    | Res.ret none mc2 => stmReadAckOrNack mc2

/-- The four bytes `binary.Write(buf, binary.BigEndian, addr)` appends for a
`uint32`. -/
def bigEndian32 (addr : Nat) : List Nat :=
  [addr / 2 ^ 24 % 256, addr / 2 ^ 16 % 256, addr / 2 ^ 8 % 256, addr % 256]

/-- The method `stmCmdWriteMemory`.  `binary.Write` into a `bytes.Buffer`
does not fail for a `uint32`. -/
def stmCmdWriteMemory (addr : Nat) (data : List Nat) (mc : Microcontroller) : Res (Option Err) :=
  match stmExecCmd CommandCodeWriteMemory mc with
  | Res.panic msg mc1 => Res.panic msg mc1
  | Res.ret (some err) mc1 => Res.ret (Wrap (some err) "err exec write mem") mc1
  | Res.ret none mc1 =>
    let addrbs := bigEndian32 addr
    match Write [addrbs ++ [checksum addrbs]] mc1 with
    | Res.panic msg mc2 => Res.panic msg mc2
    | Res.ret (some err) mc2 => Res.ret (Wrap (some err) "err writing addr") mc2
    | Res.ret none mc2 =>
      match stmReadAckOrNack mc2 with
      | Res.panic msg mc3 => Res.panic msg mc3
      | Res.ret (some err) mc3 => Res.ret (Wrap (some err) "addr ack fail") mc3
      | Res.ret none mc3 =>
        match stmWriteWithNAndChecksum data mc3 with
        | Res.panic msg mc4 => Res.panic msg mc4
        | Res.ret (some err) mc4 => Res.ret (Wrap (some err) "err writing data") mc4
        | Res.ret none mc4 =>
          match stmReadAckOrNack mc4 with
          | Res.panic msg mc5 => Res.panic msg mc5
          | Res.ret err mc5 => Res.ret (Wrap err "err ack after write data") mc5

/-- The method `stmCmdWriteUnprotect`. -/
def stmCmdWriteUnprotect (mc : Microcontroller) : Res (Option Err) :=
  match stmExecCmd CommandCodeWriteUnprotect mc with
  | Res.panic msg mc1 => Res.panic msg mc1
  | Res.ret (some err) mc1 => Res.ret (some err) mc1
  | Res.ret none mc1 =>
    match stmReadAckOrNack mc1 with
    | Res.panic msg mc2 => Res.panic msg mc2
    | Res.ret (some err) mc2 => Res.ret (some err) mc2
    | Res.ret none mc2 => stmCmdSync mc2

/-- The method `stmInit`. -/
def stmInit (mc : Microcontroller) : Res (Option Err) :=
  let mc1 := enterSTBL mc
  match stmCmdSync mc1 with
  | Res.panic msg mc2 => Res.panic msg mc2
  | Res.ret (some err) mc2 => Res.ret (some err) mc2
  | Res.ret none mc2 => stmCmdGet mc2

/-! ## stm32.go: stmFlash -/

/-- The conversion `float64(n)` of a non-negative `int`, as the natural number
the resulting double stands for: exact below `2 ^ 53`, above it rounded to a
53-bit significand, ties to even. -/
def float64OfNat (n : Nat) : Nat :=
  if n < 2 ^ 53 then n
  else
    let e := Nat.log2 n - 52
    let q := n / 2 ^ e
    let r := n % 2 ^ e
    let half := 2 ^ (e - 1)
    let q1 := if half < r ∨ (r = half ∧ q % 2 = 1) then q + 1 else q
    q1 * 2 ^ e

/-- The number of segments, `int(math.Ceil(float64(len(bs)) / stmFlashBlockMax))`:
the division by 256 is exact in binary floating point, and the ceiling of a
quotient by 256 is taken on natural numbers. -/
def nseg (len : Nat) : Nat :=
  (float64OfNat len + (stmFlashBlockMax - 1)) / stmFlashBlockMax

/-- The slice expression `bs[lo:hi]`; `none` is the panic
"slice bounds out of range". -/
def slice (bs : List Nat) (lo hi : Nat) : Option (List Nat) :=
  if lo ≤ hi ∧ hi ≤ bs.length then some ((bs.take hi).drop lo) else none

/-- The address `segAddr := addr + uint32(offset)` of segment `i`, in `uint32`
arithmetic. -/
def stmFlash.segAddr (addr : Nat) (i : Nat) : Nat :=
  let offset := i * stmFlashBlockMax
  (addr + offset % 2 ^ 32) % 2 ^ 32

/-- The block `bs[offset:endIndex]` of segment `i`. -/
def stmFlash.block (bs : List Nat) (i : Nat) : Option (List Nat) :=
  let offset := i * stmFlashBlockMax
  let endIndex := min bs.length (offset + stmFlashBlockMax)
  slice bs offset endIndex

/-- The loop of `stmFlash` over the values of `i` that are left. -/
def stmFlash.loop (bs : List Nat) (addr : Nat) : List Nat → Microcontroller → Res (Option Err)
  | [], mc => Res.ret none mc
  | i :: rest, mc =>
    match stmFlash.block bs i with
    | none => Res.panic "slice bounds out of range" mc
    | some data =>
      match stmCmdWriteMemory (stmFlash.segAddr addr i) data mc with
      | Res.panic msg mc1 => Res.panic msg mc1
      | Res.ret (some err) mc1 =>
        Res.ret (Wrap (some err) ("could not write segment " ++ toString i)) mc1
      | Res.ret none mc1 => stmFlash.loop bs addr rest mc1

/-- The method `stmFlash`; `i` runs over `0, 1, ..., nseg - 1`. -/
def stmFlash (bs : List Nat) (addr : Nat) (mc : Microcontroller) : Res (Option Err) :=
  match stmCmdEraseMemory mc with
  | Res.panic msg mc1 => Res.panic msg mc1
  | Res.ret (some err) mc1 => Res.ret (Wrap (some err) "could not erase memory") mc1
  | Res.ret none mc1 => stmFlash.loop bs addr (List.range (nseg bs.length)) mc1

/-! ## serial.go: Open and Close; mcu.go, flash.go -/

/-- The method `setupPins`: power starts high, the boot pins low; the first
`gpio.NewOutput` that fails ends it. -/
def setupPins (w : World) (mc : Microcontroller) : Res (Option Err) :=
  match w.gpioPower with
  | some err => Res.ret (some err) { mc with pinPower := none }
  | none =>
    let mc1 := { mc with pinPower := some true }
    match w.gpioBoot0 with
    | some err => Res.ret (some err) { mc1 with pinBoot0 := none }
    | none =>
      let mc2 := { mc1 with pinBoot0 := some false }
      match w.gpioBoot1 with
      | some err => Res.ret (some err) { mc2 with pinBoot1 := none }
      | none => Res.ret none { mc2 with pinBoot1 := some false }

/-- The method `Close`. -/
def Close (mc : Microcontroller) : Res (Option Err) :=
  let mc1 := exitSTBL mc
  let mc2 := { mc1 with ttyActive := false }
  let mc3 := if mc2.ttyPort.isSome then { mc2 with ttyPort := none } else mc2
  let mc4 := { mc3 with pinBoot0 := none, pinBoot1 := none, pinPower := none }
  Res.ret none mc4

/-- The method `Open`.  The new channel and the reader started on it are the
bytes the device sends over the new port; the error exit of that reader is
`rx.onError`. -/
def Open (w : World) (mc : Microcontroller) : Res (Option Err) :=
  match setupPins w mc with
  | Res.panic msg mc1 => Res.panic msg mc1
  | Res.ret (some err) mc1 => Res.ret (Wrap (some err) "could not setup pins") mc1
  | Res.ret none mc1 =>
    match w.serial with
    | Except.error err =>
      Res.ret (Wrap (some err) "could not open serial") { mc1 with ttyPort := none }
    | Except.ok port =>
      let mc2 := { mc1 with ttyPort := some port }
      let mc3 := { mc2 with ttyRx := w.incoming, ttyActive := true }
      match stmInit mc3 with
      | Res.panic msg mc4 => Res.panic msg mc4
      | Res.ret (some err) mc4 =>
        Res.ret (Wrap (some err) "could not init stm chip") (Close mc4).state
      | Res.ret none mc4 => Res.ret none mc4

/-- The method `FlashPayload`; the deferred `Close` also runs when `stmFlash`
panics. -/
def FlashPayload (w : World) (bs : List Nat) (addr : Nat) (mc : Microcontroller) :
    Res (Option Err) :=
  if !IsOpen mc then
    match Open w mc with
    | Res.panic msg mc1 => Res.panic msg mc1
    | Res.ret (some err) mc1 => Res.ret (some err) mc1
    | Res.ret none mc1 =>
      match stmFlash bs addr mc1 with
      | Res.panic msg mc2 => Res.panic msg (Close mc2).state
      | Res.ret err mc2 => Res.ret err (Close mc2).state
  else stmFlash bs addr mc

/-- The function `NewMicrocontroller`: a session with an empty opcode table, no
port and no cached identity, once `setupPins` has succeeded.  The GPIO numbers
of the configuration take no part in the state. -/
def NewMicrocontroller (w : World) : Except Err Microcontroller :=
  let mc : Microcontroller :=
    { pinPower := none, pinBoot0 := none, pinBoot1 := none,
      stmCmdCodes := [], stmBootloaderVersion := 0, ttyPort := none,
      ttyRx := [], ttyActive := false, identity := "", wire := [] }
  match setupPins w mc with
  | Res.panic msg _ => Except.error (Err.sys msg)
  | Res.ret (some err) _ => Except.error (Err.wrap err "could not setup pins")
  | Res.ret none mc1 => Except.ok mc1

/-- The method `Identify`.  The deferred `Close` runs after `mc.identity` is
assigned, and also when `stmCmdGetId` fails or panics. -/
def Identify (w : World) (mc : Microcontroller) : Res (String × Option Err) :=
  if mc.identity ≠ "" then Res.ret (mc.identity, none) mc
  else if !IsOpen mc then
    match Open w mc with
    | Res.panic msg mc1 => Res.panic msg mc1
    | Res.ret (some err) mc1 => Res.ret ("", some err) mc1
    | Res.ret none mc1 =>
      match stmCmdGetId mc1 with
      | Res.panic msg mc2 => Res.panic msg (Close mc2).state
      | Res.ret (_, some err) mc2 => Res.ret ("", some err) (Close mc2).state
      | Res.ret (pid, none) mc2 =>
        Res.ret ("STM_" ++ pid, none) (Close { mc2 with identity := "STM_" ++ pid }).state
  else
    match stmCmdGetId mc with
    | Res.panic msg mc2 => Res.panic msg mc2
    | Res.ret (_, some err) mc2 => Res.ret ("", some err) mc2
    | Res.ret (pid, none) mc2 =>
      Res.ret ("STM_" ++ pid, none) { mc2 with identity := "STM_" ++ pid }

/-- The method `Reset`. -/
def Reset (mc : Microcontroller) : Microcontroller :=
  exitSTBL mc

/-! ## serial.go: the background reader and the timers of ReadN -/

/-- The errors of `mc.ttyPort.Read` that `rx` tells apart: a `serial.PortError`
with code `PortClosed`, `syscall.EBADF`, and every other error. -/
inductive ReadFailure where
  | portClosed
  | badFileDescriptor
  | other
  deriving DecidableEq, Repr

/-- The error exit of the background reader `rx`: on a "port closed" error it
sets `mc.ttyPort = nil`; on every error it returns, and its deferred
`mc.Close()` runs. -/
def rx.onError (err : ReadFailure) (mc : Microcontroller) : Microcontroller :=
  match err with
  | ReadFailure.portClosed => (Close { mc with ttyPort := none }).state
  | ReadFailure.badFileDescriptor => (Close mc).state
  | ReadFailure.other => (Close mc).state

/-- The method `FlashPayload` in a run where the reader fails while the call
runs: the reader's error exit is taken once the session is known to be open,
after the test `!mc.IsOpen()` (or the `Open` it leads to) and before
`stmFlash` starts. -/
def FlashPayload.readerFails (err : ReadFailure) (w : World) (bs : List Nat) (addr : Nat)
    (mc : Microcontroller) : Res (Option Err) :=
  if !IsOpen mc then
    match Open w mc with
    | Res.panic msg mc1 => Res.panic msg mc1
    | Res.ret (some e) mc1 => Res.ret (some e) mc1
    | Res.ret none mc1 =>
      match stmFlash bs addr (rx.onError err mc1) with
      | Res.panic msg mc2 => Res.panic msg (Close mc2).state
      | Res.ret e mc2 => Res.ret e (Close mc2).state
  else stmFlash bs addr (rx.onError err mc)

/-- The method `Identify` in a run where the reader fails while the call runs:
the reader's error exit is taken once the session is known to be open, after
the test `!mc.IsOpen()` (or the `Open` it leads to) and before `stmCmdGetId`
starts.  A cached identity is returned before that test. -/
def Identify.readerFails (err : ReadFailure) (w : World) (mc : Microcontroller) :
    Res (String × Option Err) :=
  if mc.identity ≠ "" then Res.ret (mc.identity, none) mc
  else if !IsOpen mc then
    match Open w mc with
    | Res.panic msg mc1 => Res.panic msg mc1
    | Res.ret (some e) mc1 => Res.ret ("", some e) mc1
    | Res.ret none mc1 =>
      match stmCmdGetId (rx.onError err mc1) with
      | Res.panic msg mc2 => Res.panic msg (Close mc2).state
      | Res.ret (_, some e) mc2 => Res.ret ("", some e) (Close mc2).state
      | Res.ret (pid, none) mc2 =>
        Res.ret ("STM_" ++ pid, none) (Close { mc2 with identity := "STM_" ++ pid }).state
  else
    match stmCmdGetId (rx.onError err mc) with
    | Res.panic msg mc2 => Res.panic msg mc2
    | Res.ret (_, some e) mc2 => Res.ret ("", some e) mc2
    | Res.ret (pid, none) mc2 =>
      Res.ret ("STM_" ++ pid, none) { mc2 with identity := "STM_" ++ pid }

/-- The loop of `ReadN` with time.  `k` bytes are still to be read, `now` is
the time at which the `select` of this iteration starts, `acc` holds the bytes
read so far, and the queue holds every byte still to come together with the
time at which the reader pushes it onto the channel.  `time.After(to)` is
armed afresh in every iteration, so the timer of this `select` fires at
`now + tmo`; a byte pushed at time `a` can be received at `max a now`.  The
`select` takes whichever becomes ready first; when the byte and the timer are
ready at the same instant it may take either, and `tie k` tells whether it
takes the byte.  The result is the returned value with the queue left. -/
def ReadN.timedLoop (tmo : Nat) (tie : Nat → Bool) :
    Nat → Nat → List Nat → List (Nat × Nat) → Except Err (List Nat) × List (Nat × Nat)
  | 0, _, acc, q => (Except.ok acc, q)
  | _ + 1, _, _, [] => (Except.error ErrTimeout, [])
  | k + 1, now, acc, (a, b) :: q =>
    if Nat.max a now < now + tmo then
      ReadN.timedLoop tmo tie k (Nat.max a now) (acc ++ [b]) q
    else if now + tmo < Nat.max a now then (Except.error ErrTimeout, (a, b) :: q)
    else if tie k then ReadN.timedLoop tmo tie k (Nat.max a now) (acc ++ [b]) q
    else (Except.error ErrTimeout, (a, b) :: q)

/-- The method `ReadN(n, to)` with time: the call starts at time `now`, and `q`
is the receive queue with the arrival time of each byte (its bytes are those of
`mc.ttyRx`).  A timer armed with a negative duration fires at once, as one
armed with zero does, so `tmo = 0` stands for every `to <= 0`. -/
def ReadN.timed (n : Int) (tmo : Nat) (tie : Nat → Bool) (now : Nat) (q : List (Nat × Nat))
    (mc : Microcontroller) : Res (Except Err (List Nat)) :=
  if !IsOpen mc then Res.ret (Except.error ErrClosed) mc
  else if n < 0 then Res.panic "makeslice: len out of range" mc
  else
    Res.ret (ReadN.timedLoop tmo tie n.toNat now [] q).1
      { mc with ttyRx := (ReadN.timedLoop tmo tie n.toNat now [] q).2.map Prod.snd }

/-! ## Example sessions -/

/-- A closed session as `NewMicrocontroller` leaves it when the pins can be
acquired. -/
def closedSession : Microcontroller :=
  { pinPower := some true, pinBoot0 := some false, pinBoot1 := some false,
    stmCmdCodes := [], stmBootloaderVersion := 0, ttyPort := none,
    ttyRx := [], ttyActive := false, identity := "", wire := [] }

/-- An open session as `NewMicrocontroller` followed by a successful `Open`
leaves it, with an empty opcode table, a port that accepts every write, and
`rx` as the bytes the device is going to deliver. -/
def openSession (rx : List Nat) : Microcontroller :=
  { pinPower := some true, pinBoot0 := some true, pinBoot1 := some false,
    stmCmdCodes := [], stmBootloaderVersion := 0, ttyPort := some { writesLeft := none },
    ttyRx := rx, ttyActive := true, identity := "", wire := [] }

/-- A world in which the pins and the serial port can be acquired and the
device sends `incoming`. -/
def goodWorld (incoming : List Nat) : World :=
  { gpioPower := none, gpioBoot0 := none, gpioBoot1 := none,
    serial := Except.ok { writesLeft := none }, incoming := incoming }

/-! # Theorems -/

set_option maxRecDepth 1000000

/-! ## Transport lemmas -/

theorem checksum_eq_foldl (b : List Nat) :
    checksum b = b.foldl (fun s x => s ^^^ x) 0 := by
  match b with
  | [] => rfl
  | [x] => simp [checksum]
  | x :: y :: rest => simp [checksum]

theorem checksum_cons (x : Nat) (xs : List Nat) :
    checksum (x :: xs) = xs.foldl (fun s y => s ^^^ y) x := by
  rw [checksum_eq_foldl]
  simp

theorem ReadN_loop_ok (xs : List Nat) :
    ∀ (acc rest : List Nat) (mc : Microcontroller), mc.ttyRx = xs ++ rest →
      ReadN.loop xs.length acc mc = Res.ret (Except.ok (acc ++ xs)) { mc with ttyRx := rest } := by
  induction xs with
  | nil =>
    intro acc rest mc h
    obtain ⟨pp, pb0, pb1, codes, ver, port, rx, act, ident, wire⟩ := mc
    simp at h
    subst h
    simp [ReadN.loop]
  | cons x xs ih =>
    intro acc rest mc h
    obtain ⟨pp, pb0, pb1, codes, ver, port, rx, act, ident, wire⟩ := mc
    simp at h
    subst h
    simp [ReadN.loop]
    rw [ih (acc ++ [x]) rest _ rfl]
    simp

theorem ReadN_loop_timeout :
    ∀ (k : Nat) (acc : List Nat) (mc : Microcontroller), mc.ttyRx.length < k →
      ReadN.loop k acc mc = Res.ret (Except.error ErrTimeout) { mc with ttyRx := [] } := by
  intro k
  induction k with
  | zero => intro acc mc h; simp at h
  | succ k ih =>
    intro acc mc h
    obtain ⟨pp, pb0, pb1, codes, ver, port, rx, act, ident, wire⟩ := mc
    cases rx with
    | nil => simp [ReadN.loop]
    | cons b q =>
      simp [ReadN.loop]
      simp at h
      rw [ih (acc ++ [b]) _ (by simpa using h)]

theorem ReadN_ok (xs rest : List Nat) (tmo : Nat) (mc : Microcontroller)
    (hopen : IsOpen mc = true) (h : mc.ttyRx = xs ++ rest) :
    ReadN (Int.ofNat xs.length) tmo mc = Res.ret (Except.ok xs) { mc with ttyRx := rest } := by
  have := ReadN_loop_ok xs [] rest mc h
  simp [ReadN, hopen]
  simpa using this

theorem Write_one (b : List Nat) (mc : Microcontroller)
    (hp : mc.ttyPort = some { writesLeft := none }) :
    Write [b] mc = Res.ret none { mc with wire := mc.wire ++ [b] } := by
  obtain ⟨pp, pb0, pb1, codes, ver, port, rx, act, ident, wire⟩ := mc
  simp at hp
  subst hp
  simp [Write, IsOpen, Write.loop, Port.Write]

theorem IsOpen_of_port (mc : Microcontroller) (p : Port) (hp : mc.ttyPort = some p) :
    IsOpen mc = true := by
  simp [IsOpen, hp]

theorem stmReadAckOrNack_cons (b : Nat) (rest : List Nat) (mc : Microcontroller)
    (hopen : IsOpen mc = true) (h : mc.ttyRx = b :: rest) :
    stmReadAckOrNack mc =
      Res.ret (if b = b_STM_ACK then none
               else if b = b_STM_NACK then some ErrSTMNACK else some ErrSTMFailedToAck)
        { mc with ttyRx := rest } := by
  have h1 := ReadN_ok [b] rest STMTimeout mc hopen (by simpa using h)
  simp at h1
  simp only [stmReadAckOrNack, h1]
  split_ifs <;> rfl

theorem stmReadAckOrNack_nil (mc : Microcontroller)
    (hopen : IsOpen mc = true) (h : mc.ttyRx = []) :
    stmReadAckOrNack mc = Res.ret (some ErrTimeout) mc := by
  obtain ⟨pp, pb0, pb1, codes, ver, port, rx, act, ident, wire⟩ := mc
  simp at h
  subst h
  simp [IsOpen] at hopen
  simp [stmReadAckOrNack, ReadN, IsOpen, hopen, ReadN.loop]

theorem stmReadWithLength_ok (xs rest : List Nat) (mc : Microcontroller)
    (hopen : IsOpen mc = true) (h1 : 1 ≤ xs.length)
    (hrx : mc.ttyRx = (xs.length - 1) :: (xs ++ rest)) :
    stmReadWithLength mc = Res.ret (Except.ok xs) { mc with ttyRx := rest } := by
  have ha := ReadN_ok [xs.length - 1] (xs ++ rest) STMTimeout mc hopen (by simpa using hrx)
  have hb := ReadN_ok xs rest STMTimeout { mc with ttyRx := xs ++ rest } hopen rfl
  have hn : Int.ofNat (xs.length - 1) + 1 = Int.ofNat xs.length := by
    simp only [Int.ofNat_eq_coe]
    omega
  simp only [List.length_singleton, Int.ofNat_eq_coe, Nat.cast_one] at ha
  simp only [stmReadWithLength, ha, hn, hb]

/-! ## Command frames lemmas -/

theorem stmCommandSequence_congr (mc mc1 : Microcontroller) (c : CommandCode)
    (h : mc1.stmCmdCodes = mc.stmCmdCodes) :
    stmCommandSequence mc1 c = stmCommandSequence mc c := by
  simp [stmCommandSequence, h]

theorem stmCommandSequence_Sync (mc : Microcontroller) :
    stmCommandSequence mc CommandCodeSync = some [0x7f] := by
  simp [stmCommandSequence, b_STM_SYNC]

theorem stmCommandSequence_Get (mc : Microcontroller) :
    stmCommandSequence mc CommandCodeGet =
      some [(mc.stmCmdCodes.get CommandCodeGet).getD 0x00,
            (mc.stmCmdCodes.get CommandCodeGet).getD 0x00 ^^^ 0xff] := by
  unfold stmCommandSequence
  rw [if_neg (by decide)]
  cases h : mc.stmCmdCodes.get CommandCodeGet with
  | none =>
    have hd : defaultCmdCodeMap.get CommandCodeGet = some 0x00 := by decide
    simp [hd]
  | some op => simp [Nat.xor_comm]

theorem stmCommandSequence_Erase (mc : Microcontroller) :
    stmCommandSequence mc CommandCodeErase =
      some [(mc.stmCmdCodes.get CommandCodeErase).getD 0x43,
            (mc.stmCmdCodes.get CommandCodeErase).getD 0x43 ^^^ 0xff] := by
  unfold stmCommandSequence
  rw [if_neg (by decide)]
  cases h : mc.stmCmdCodes.get CommandCodeErase with
  | none =>
    have hd : defaultCmdCodeMap.get CommandCodeErase = some 0x43 := by decide
    simp [hd]
  | some op => simp [Nat.xor_comm]

theorem stmCommandSequence_WriteMemory (mc : Microcontroller) :
    stmCommandSequence mc CommandCodeWriteMemory =
      some [(mc.stmCmdCodes.get CommandCodeWriteMemory).getD 0x31,
            (mc.stmCmdCodes.get CommandCodeWriteMemory).getD 0x31 ^^^ 0xff] := by
  unfold stmCommandSequence
  rw [if_neg (by decide)]
  cases h : mc.stmCmdCodes.get CommandCodeWriteMemory with
  | none =>
    have hd : defaultCmdCodeMap.get CommandCodeWriteMemory = some 0x31 := by decide
    simp [hd]
  | some op => simp [Nat.xor_comm]

theorem stmExecCmd_cons (c : CommandCode) (seq : List Nat) (b : Nat) (rest : List Nat)
    (mc : Microcontroller) (hp : mc.ttyPort = some { writesLeft := none })
    (hseq : stmCommandSequence mc c = some seq) (hrx : mc.ttyRx = b :: rest) :
    stmExecCmd c mc =
      Res.ret (if b = b_STM_ACK then none
               else if b = b_STM_NACK then some ErrSTMNACK else some ErrSTMFailedToAck)
        { mc with ttyRx := rest, wire := mc.wire ++ [seq] } := by
  have hw := Write_one seq mc hp
  have hr := stmReadAckOrNack_cons b rest { mc with wire := mc.wire ++ [seq] }
    (IsOpen_of_port _ _ hp) hrx
  simp only [stmExecCmd, hseq, hw, hr]
  split_ifs <;> rfl

theorem stmCmdEraseMemory_ack (seq : List Nat) (rest : List Nat)
    (mc : Microcontroller) (hp : mc.ttyPort = some { writesLeft := none })
    (hseq : stmCommandSequence mc CommandCodeErase = some seq)
    (hrx : mc.ttyRx = b_STM_ACK :: b_STM_ACK :: rest) :
    stmCmdEraseMemory mc =
      Res.ret none { mc with ttyRx := rest, wire := mc.wire ++ [seq, [0xff, 0x00]] } := by
  have h1 := stmExecCmd_cons CommandCodeErase seq b_STM_ACK (b_STM_ACK :: rest) mc hp hseq hrx
  simp only [if_true] at h1
  have h2 := Write_one [0xff, 0x00]
    { mc with ttyRx := b_STM_ACK :: rest, wire := mc.wire ++ [seq] } hp
  have h3 := stmReadAckOrNack_cons b_STM_ACK rest
    { mc with ttyRx := b_STM_ACK :: rest, wire := mc.wire ++ [seq] ++ [[0xff, 0x00]] }
    (IsOpen_of_port _ _ hp) rfl
  simp only [if_true] at h3
  simp only [stmCmdEraseMemory, h1, h2, h3]
  simp

theorem lengthByte_eq (n : Nat) (h1 : 1 ≤ n) (h2 : n ≤ 256) :
    (((n : Int) - 1) % 256).toNat = n - 1 := by
  omega

theorem bigEndian32_eq (a : Nat) (ha : a < 2 ^ 32) :
    bigEndian32 a = [a / 2 ^ 24, a / 2 ^ 16 % 256, a / 2 ^ 8 % 256, a % 256] := by
  have h : a / 2 ^ 24 % 256 = a / 2 ^ 24 := by omega
  unfold bigEndian32
  rw [h]

theorem stmCmdWriteMemory_ack (addr : Nat) (data seq rest : List Nat)
    (mc : Microcontroller) (hp : mc.ttyPort = some { writesLeft := none })
    (hseq : stmCommandSequence mc CommandCodeWriteMemory = some seq)
    (hrx : mc.ttyRx = b_STM_ACK :: b_STM_ACK :: b_STM_ACK :: rest) :
    stmCmdWriteMemory addr data mc =
      Res.ret none { mc with
        ttyRx := rest,
        wire := mc.wire ++
          [seq,
           bigEndian32 addr ++ [checksum (bigEndian32 addr)],
           [(((data.length : Int) - 1) % 256).toNat] ++ data ++
             [checksum ([(((data.length : Int) - 1) % 256).toNat] ++ data)]] } := by
  have h1 := stmExecCmd_cons CommandCodeWriteMemory seq b_STM_ACK
    (b_STM_ACK :: b_STM_ACK :: rest) mc hp hseq hrx
  simp only [if_true] at h1
  have h2 := Write_one (bigEndian32 addr ++ [checksum (bigEndian32 addr)])
    { mc with ttyRx := b_STM_ACK :: b_STM_ACK :: rest, wire := mc.wire ++ [seq] } hp
  have h3 := stmReadAckOrNack_cons b_STM_ACK (b_STM_ACK :: rest)
    { mc with ttyRx := b_STM_ACK :: b_STM_ACK :: rest,
              wire := mc.wire ++ [seq] ++ [bigEndian32 addr ++ [checksum (bigEndian32 addr)]] }
    (IsOpen_of_port _ _ hp) rfl
  simp only [if_true] at h3
  have h4 := Write_one ([(((data.length : Int) - 1) % 256).toNat] ++ data ++
             [checksum ([(((data.length : Int) - 1) % 256).toNat] ++ data)])
    { mc with ttyRx := b_STM_ACK :: rest,
              wire := mc.wire ++ [seq] ++ [bigEndian32 addr ++ [checksum (bigEndian32 addr)]] } hp
  have h5 := stmReadAckOrNack_cons b_STM_ACK rest
    { mc with ttyRx := b_STM_ACK :: rest,
              wire := mc.wire ++ [seq] ++ [bigEndian32 addr ++ [checksum (bigEndian32 addr)]] ++
                [[(((data.length : Int) - 1) % 256).toNat] ++ data ++
                  [checksum ([(((data.length : Int) - 1) % 256).toNat] ++ data)]] }
    (IsOpen_of_port _ _ hp) rfl
  simp only [if_true] at h5
  simp only [stmCmdWriteMemory, stmWriteWithNAndChecksum, stmWriteWithChecksum, h1, h2, h3, h4, h5]
  simp [Wrap]

/-! ## Discovery lemmas -/

theorem stmCmdGet_loop_ok (bs : List Nat) :
    ∀ (k i : Nat) (mc : Microcontroller), i + k + 1 ≤ bs.length →
      ∃ codes : commandCodeMap,
        stmCmdGet.loop bs k i mc = Res.ret none { mc with stmCmdCodes := codes } ∧
        (∀ j : Nat, i ≤ j → j < i + k → codes.get (Int.ofNat j) = bs[j + 1]?) ∧
        (∀ c : Int, (c < Int.ofNat i ∨ Int.ofNat (i + k) ≤ c) →
          codes.get c = mc.stmCmdCodes.get c) := by
  intro k
  induction k with
  | zero =>
    intro i mc _
    refine ⟨mc.stmCmdCodes, rfl, ?_, fun _ _ => rfl⟩
    intro j h1 h2
    omega
  | succ k ih =>
    intro i mc hlen
    have hb : bs[i + 1]? = some (bs[i + 1]) := List.getElem?_eq_getElem (by omega)
    obtain ⟨codes, hc, hin, hout⟩ := ih (i + 1)
      { mc with stmCmdCodes := mc.stmCmdCodes.set (Int.ofNat i) bs[i + 1] } (by omega)
    refine ⟨codes, ?_, ?_, ?_⟩
    · simp only [stmCmdGet.loop, hb]
      exact hc
    · intro j h1 h2
      by_cases hj : j = i
      · subst hj
        rw [hout (Int.ofNat j) (Or.inl (by simp only [Int.ofNat_eq_coe]; omega))]
        simp [commandCodeMap.set, commandCodeMap.get, List.lookup, hb]
      · exact hin j (by omega) (by omega)
    · intro c hcases
      rw [hout c (by
        simp only [Int.ofNat_eq_coe] at hcases ⊢
        omega)]
      have hne : c ≠ (i : Int) := by
        simp only [Int.ofNat_eq_coe] at hcases
        omega
      have hbeq : (c == (i : Int)) = false := beq_false_of_ne hne
      simp [commandCodeMap.set, commandCodeMap.get, List.lookup_cons, hbeq]

theorem stmCmdGet_ok (p rest : List Nat) (mc : Microcontroller)
    (hm : 1 ≤ p.length) (hp : mc.ttyPort = some { writesLeft := none })
    (hrx : mc.ttyRx = b_STM_ACK :: (p.length - 1) :: (p ++ b_STM_ACK :: rest)) :
    ∃ (v : Nat) (codes : commandCodeMap),
      stmCmdGet mc = Res.ret none { mc with
        stmCmdCodes := codes,
        stmBootloaderVersion := v,
        ttyRx := rest,
        wire := mc.wire ++ [[(mc.stmCmdCodes.get CommandCodeGet).getD 0x00,
            (mc.stmCmdCodes.get CommandCodeGet).getD 0x00 ^^^ 0xff]] } ∧
      p[0]? = some v ∧
      (∀ j : Nat, j + 1 < p.length → codes.get (Int.ofNat j) = p[j + 1]?) ∧
      (∀ c : Int, (c < 0 ∨ (p.length : Int) - 1 ≤ c) →
        codes.get c = mc.stmCmdCodes.get c) := by
  have h1 := stmExecCmd_cons CommandCodeGet _ b_STM_ACK _ mc hp (stmCommandSequence_Get mc) hrx
  simp only [if_true] at h1
  have h2 := stmReadWithLength_ok p (b_STM_ACK :: rest)
    { mc with
      ttyRx := (p.length - 1) :: (p ++ b_STM_ACK :: rest),
      wire := mc.wire ++ [[(mc.stmCmdCodes.get CommandCodeGet).getD 0x00,
            (mc.stmCmdCodes.get CommandCodeGet).getD 0x00 ^^^ 0xff]] }
    (IsOpen_of_port _ _ hp) hm rfl
  have h3 := stmReadAckOrNack_cons b_STM_ACK rest
    { mc with
      ttyRx := b_STM_ACK :: rest,
      wire := mc.wire ++ [[(mc.stmCmdCodes.get CommandCodeGet).getD 0x00,
            (mc.stmCmdCodes.get CommandCodeGet).getD 0x00 ^^^ 0xff]] }
    (IsOpen_of_port _ _ hp) rfl
  simp only [if_true] at h3
  have hv : p[0]? = some (p[0]) := List.getElem?_eq_getElem (by omega)
  obtain ⟨codes, hc, hin, hout⟩ := stmCmdGet_loop_ok p (p.length - 1) 0
    { mc with
      stmBootloaderVersion := p[0],
      ttyRx := rest,
      wire := mc.wire ++ [[(mc.stmCmdCodes.get CommandCodeGet).getD 0x00,
            (mc.stmCmdCodes.get CommandCodeGet).getD 0x00 ^^^ 0xff]] } (by omega)
  refine ⟨p[0], codes, ?_, hv, ?_, ?_⟩
  · simp only [stmCmdGet, h1, h2, h3, hv]
    exact hc
  · intro j hj
    exact hin j (Nat.zero_le _) (by omega)
  · intro c hcases
    exact hout c (by
      simp only [Int.ofNat_eq_coe] at hcases ⊢
      omega)

/-! ## Segmentation lemmas -/

theorem block_eq (bs : List Nat) (i : Nat) (h : i * 256 < bs.length) :
    stmFlash.block bs i =
      some ((bs.take (Nat.min bs.length ((i + 1) * 256))).drop (i * 256)) := by
  have hmin : Flash.min bs.length (i * 256 + 256) = Nat.min bs.length ((i + 1) * 256) := by
    show _ = Min.min bs.length ((i + 1) * 256)
    unfold Flash.min
    rw [Nat.min_def]
    split_ifs <;> omega
  have hle : Nat.min bs.length ((i + 1) * 256) ≤ bs.length := Nat.min_le_left _ _
  have hlo : i * 256 ≤ Nat.min bs.length ((i + 1) * 256) := by
    show _ ≤ Min.min bs.length ((i + 1) * 256)
    rw [Nat.min_def]
    split_ifs <;> omega
  simp only [stmFlash.block, slice, stmFlashBlockMax, hmin]
  simp [hle, hlo]

theorem block_length (bs : List Nat) (i : Nat) (h : i * 256 < bs.length) :
    1 ≤ ((bs.take (Nat.min bs.length ((i + 1) * 256))).drop (i * 256)).length ∧
    ((bs.take (Nat.min bs.length ((i + 1) * 256))).drop (i * 256)).length ≤ 256 := by
  have h1 : Nat.min bs.length ((i + 1) * 256) = Min.min bs.length ((i + 1) * 256) := rfl
  rw [h1, List.length_drop, List.length_take, Nat.min_def]
  split_ifs <;> omega

theorem segAddr_eq (addr i : Nat) :
    stmFlash.segAddr addr i = (addr + i * 256) % 2 ^ 32 := by
  simp [stmFlash.segAddr, stmFlashBlockMax]

theorem nseg_eq (len : Nat) (h : len < 2 ^ 53) : nseg len = (len + 255) / 256 := by
  have hf : float64OfNat len = len := by
    unfold float64OfNat
    exact if_pos h
  simp [nseg, hf, stmFlashBlockMax]

theorem replicate_three (n : Nat) (a : Nat) (rest : List Nat) :
    List.replicate (3 * (n + 1)) a ++ rest = a :: a :: a :: (List.replicate (3 * n) a ++ rest) := by
  have : 3 * (n + 1) = 3 * n + 1 + 1 + 1 := by ring
  rw [this]
  simp [List.replicate_succ]

theorem replicate_two_add (n : Nat) (a : Nat) (rest : List Nat) :
    List.replicate (2 + n) a ++ rest = a :: a :: (List.replicate n a ++ rest) := by
  have : 2 + n = n + 1 + 1 := by ring
  rw [this]
  simp [List.replicate_succ]

theorem stmFlash_loop_ack (bs : List Nat) (addr : Nat) (seq : List Nat) :
    ∀ (is : List Nat) (rest : List Nat) (mc : Microcontroller),
      mc.ttyPort = some { writesLeft := none } →
      stmCommandSequence mc CommandCodeWriteMemory = some seq →
      (∀ i ∈ is, i * 256 < bs.length) →
      mc.ttyRx = List.replicate (3 * is.length) b_STM_ACK ++ rest →
      stmFlash.loop bs addr is mc =
        Res.ret none { mc with
          ttyRx := rest,
          wire := mc.wire ++ is.flatMap (fun i =>
            [seq,
             bigEndian32 ((addr + i * 256) % 2 ^ 32) ++
               [checksum (bigEndian32 ((addr + i * 256) % 2 ^ 32))],
             [((bs.take (Nat.min bs.length ((i + 1) * 256))).drop (i * 256)).length - 1] ++
               (bs.take (Nat.min bs.length ((i + 1) * 256))).drop (i * 256) ++
               [checksum
                 ([((bs.take (Nat.min bs.length ((i + 1) * 256))).drop (i * 256)).length - 1] ++
                   (bs.take (Nat.min bs.length ((i + 1) * 256))).drop (i * 256))]]) } := by
  intro is
  induction is with
  | nil =>
    intro rest mc _ _ _ hrx
    obtain ⟨pp, pb0, pb1, codes, ver, port, rx, act, ident, wire⟩ := mc
    simp at hrx
    subst hrx
    simp [stmFlash.loop]
  | cons i is ih =>
    intro rest mc hp hseq hlt hrx
    have hi : i * 256 < bs.length := hlt i (List.mem_cons_self _ _)
    rw [List.length_cons, replicate_three] at hrx
    have hb := block_eq bs i hi
    have hl := block_length bs i hi
    have hw := stmCmdWriteMemory_ack (stmFlash.segAddr addr i)
      ((bs.take (Nat.min bs.length ((i + 1) * 256))).drop (i * 256)) seq
      (List.replicate (3 * is.length) b_STM_ACK ++ rest) mc hp hseq hrx
    rw [lengthByte_eq _ hl.1 hl.2, segAddr_eq] at hw
    simp only [stmFlash.loop, hb, segAddr_eq, hw]
    refine Eq.trans (ih rest _ ?_ ?_ ?_ ?_) ?_
    · exact hp
    · rw [← hseq]
      exact stmCommandSequence_congr _ _ _ rfl
    · exact fun j hj => hlt j (List.mem_cons_of_mem _ hj)
    · rfl
    · simp [List.flatMap_cons]

theorem stmFlash_loop_append (bs : List Nat) (addr : Nat) (l2 : List Nat) :
    ∀ (l1 : List Nat) (mc mc2 : Microcontroller),
      stmFlash.loop bs addr l1 mc = Res.ret none mc2 →
      stmFlash.loop bs addr (l1 ++ l2) mc = stmFlash.loop bs addr l2 mc2 := by
  intro l1
  induction l1 with
  | nil =>
    intro mc mc2 h
    simp only [stmFlash.loop, Res.ret.injEq, true_and] at h
    subst h
    rfl
  | cons i l1 ih =>
    intro mc mc2 h
    simp only [List.cons_append, stmFlash.loop] at h ⊢
    cases hb : stmFlash.block bs i with
    | none => simp [hb] at h
    | some data =>
      simp only [hb] at h ⊢
      cases hw : stmCmdWriteMemory (stmFlash.segAddr addr i) data mc with
      | panic msg m => simp [hw] at h
      | ret v m =>
        cases v with
        | some err => simp [hw, Wrap] at h
        | none =>
          simp only [hw] at h ⊢
          exact ih m mc2 h

theorem stmFlash_loop_chain (bs : List Nat) (addr : Nat) (s : Nat → Microcontroller) :
    ∀ i : Nat,
      (∀ j, j < i → ∃ blk, stmFlash.block bs j = some blk ∧
        stmCmdWriteMemory (stmFlash.segAddr addr j) blk (s j) = Res.ret none (s (j + 1))) →
      stmFlash.loop bs addr (List.range i) (s 0) = Res.ret none (s i) := by
  intro i
  induction i with
  | zero => intro _; rfl
  | succ i ih =>
    intro h
    have h1 := ih (fun j hj => h j (Nat.lt_succ_of_lt hj))
    rw [List.range_succ, stmFlash_loop_append bs addr [i] (List.range i) (s 0) (s i) h1]
    obtain ⟨blk, hb, hw⟩ := h i (Nat.lt_succ_self i)
    simp only [stmFlash.loop, hb, hw]

theorem range_split (n i : Nat) (h : i < n) :
    ∃ tl, List.range n = List.range i ++ i :: tl := by
  induction n with
  | zero => omega
  | succ n ih =>
    rw [List.range_succ]
    by_cases hi : i = n
    · subst hi
      exact ⟨[], rfl⟩
    · obtain ⟨tl, htl⟩ := ih (by omega)
      exact ⟨tl ++ [n], by rw [htl]; simp⟩

theorem erase_nack_at_command (bs : List Nat) (addr : Nat) (rest : List Nat)
    (mc : Microcontroller) (hp : mc.ttyPort = some { writesLeft := none })
    (hrx : mc.ttyRx = b_STM_NACK :: rest) :
    stmFlash bs addr mc =
      Res.ret (some (Err.wrap ErrSTMNACK "could not erase memory"))
        { mc with
          ttyRx := rest,
          wire := mc.wire ++
            [[(mc.stmCmdCodes.get CommandCodeErase).getD 0x43,
              (mc.stmCmdCodes.get CommandCodeErase).getD 0x43 ^^^ 0xff]] } := by
  have h1 := stmExecCmd_cons CommandCodeErase _ b_STM_NACK rest mc hp
    (stmCommandSequence_Erase mc) hrx
  rw [if_neg (by decide), if_pos rfl] at h1
  simp only [stmFlash, stmCmdEraseMemory, h1, Wrap]

theorem erase_nack_at_sentinel (bs : List Nat) (addr : Nat) (rest : List Nat)
    (mc : Microcontroller) (hp : mc.ttyPort = some { writesLeft := none })
    (hrx : mc.ttyRx = b_STM_ACK :: b_STM_NACK :: rest) :
    stmFlash bs addr mc =
      Res.ret (some (Err.wrap ErrSTMNACK "could not erase memory"))
        { mc with
          ttyRx := rest,
          wire := mc.wire ++
            [[(mc.stmCmdCodes.get CommandCodeErase).getD 0x43,
              (mc.stmCmdCodes.get CommandCodeErase).getD 0x43 ^^^ 0xff],
             [0xff, 0x00]] } := by
  have h1 := stmExecCmd_cons CommandCodeErase _ b_STM_ACK (b_STM_NACK :: rest) mc hp
    (stmCommandSequence_Erase mc) hrx
  simp only [if_true] at h1
  have h2 := Write_one [0xff, 0x00]
    { mc with
      ttyRx := b_STM_NACK :: rest,
      wire := mc.wire ++ [[(mc.stmCmdCodes.get CommandCodeErase).getD 0x43,
              (mc.stmCmdCodes.get CommandCodeErase).getD 0x43 ^^^ 0xff]] } hp
  have h3 := stmReadAckOrNack_cons b_STM_NACK rest
    { mc with
      ttyRx := b_STM_NACK :: rest,
      wire := mc.wire ++ [[(mc.stmCmdCodes.get CommandCodeErase).getD 0x43,
              (mc.stmCmdCodes.get CommandCodeErase).getD 0x43 ^^^ 0xff]] ++ [[0xff, 0x00]] }
    (IsOpen_of_port _ _ hp) rfl
  rw [if_neg (by decide), if_pos rfl] at h3
  simp only [stmFlash, stmCmdEraseMemory, h1, h2, h3, Wrap]
  simp

/-! ## Facade lemmas -/

theorem FlashPayload_open (w : World) (bs : List Nat) (addr : Nat) (mc : Microcontroller)
    (hopen : IsOpen mc = true) : FlashPayload w bs addr mc = stmFlash bs addr mc := by
  simp [FlashPayload, hopen]

theorem FlashPayload_closed (w : World) (bs : List Nat) (addr : Nat)
    (mc0 mc mc1 : Microcontroller) (r : Option Err)
    (hclosed : IsOpen mc0 = false) (hopen : Open w mc0 = Res.ret none mc)
    (hflash : stmFlash bs addr mc = Res.ret r mc1) :
    FlashPayload w bs addr mc0 = Res.ret r (Close mc1).state := by
  simp [FlashPayload, hclosed, hopen, hflash]

theorem Close_wire (mc : Microcontroller) :
    (Close mc).state.wire = mc.wire ∧ IsOpen (Close mc).state = false := by
  unfold Close exitSTBL
  by_cases h : mc.ttyPort.isSome <;> simp [h, Res.state, IsOpen]

/-! ## Frame lemmas: what the link operations leave alone -/

theorem ReadN_take_drop (n : Nat) (tmo : Nat) (mc : Microcontroller)
    (hopen : IsOpen mc = true) (hn : n ≤ mc.ttyRx.length) :
    ReadN (Int.ofNat n) tmo mc =
      Res.ret (Except.ok (mc.ttyRx.take n)) { mc with ttyRx := mc.ttyRx.drop n } := by
  have h := ReadN_ok (mc.ttyRx.take n) (mc.ttyRx.drop n) tmo mc hopen
    (List.take_append_drop n mc.ttyRx).symm
  rw [List.length_take, Nat.min_eq_left hn] at h
  exact h

theorem ReadN_short (n : Nat) (tmo : Nat) (mc : Microcontroller)
    (hopen : IsOpen mc = true) (hn : mc.ttyRx.length < n) :
    ReadN (Int.ofNat n) tmo mc =
      Res.ret (Except.error ErrTimeout) { mc with ttyRx := [] } := by
  simp only [ReadN, hopen, Bool.not_true, Bool.false_eq_true, if_false]
  rw [if_neg (by simp)]
  exact ReadN_loop_timeout _ [] mc (by simpa using hn)

theorem ReadN_loop_frame :
    ∀ (k : Nat) (acc : List Nat) (mc : Microcontroller),
      ((ReadN.loop k acc mc).state.stmCmdCodes, (ReadN.loop k acc mc).state.identity,
        (ReadN.loop k acc mc).state.ttyPort, (ReadN.loop k acc mc).state.wire) =
      (mc.stmCmdCodes, mc.identity, mc.ttyPort, mc.wire) := by
  intro k
  induction k with
  | zero => intro acc mc; rfl
  | succ k ih =>
    intro acc mc
    unfold ReadN.loop
    split
    · rfl
    · exact ih _ _

theorem ReadN_loop_no_panic :
    ∀ (k : Nat) (acc : List Nat) (mc : Microcontroller) (msg : String) (mc1 : Microcontroller),
      ReadN.loop k acc mc ≠ Res.panic msg mc1 := by
  intro k
  induction k with
  | zero => intro acc mc msg mc1 h; simp [ReadN.loop] at h
  | succ k ih =>
    intro acc mc msg mc1
    unfold ReadN.loop
    split
    · intro h; cases h
    · exact ih _ _ _ _

theorem ReadN_frame (n : Int) (tmo : Nat) (mc : Microcontroller) :
    ((ReadN n tmo mc).state.stmCmdCodes, (ReadN n tmo mc).state.identity,
      (ReadN n tmo mc).state.ttyPort, (ReadN n tmo mc).state.wire) =
    (mc.stmCmdCodes, mc.identity, mc.ttyPort, mc.wire) := by
  unfold ReadN
  split
  · rfl
  · split
    · rfl
    · exact ReadN_loop_frame _ _ _

theorem ReadN_no_panic (n : Int) (tmo : Nat) (mc : Microcontroller) (hn : 0 ≤ n)
    (msg : String) (mc1 : Microcontroller) :
    ReadN n tmo mc ≠ Res.panic msg mc1 := by
  unfold ReadN
  split
  · intro h; cases h
  · rw [if_neg (not_lt.mpr hn)]
    exact ReadN_loop_no_panic _ _ _ _ _

theorem Write_loop_frame :
    ∀ (bs : List (List Nat)) (mc : Microcontroller),
      ((Write.loop bs mc).state.stmCmdCodes, (Write.loop bs mc).state.identity,
        (Write.loop bs mc).state.ttyPort.isSome, (Write.loop bs mc).state.ttyRx) =
      (mc.stmCmdCodes, mc.identity, mc.ttyPort.isSome, mc.ttyRx) := by
  intro bs
  induction bs with
  | nil => intro mc; rfl
  | cons b rest ih =>
    intro mc
    unfold Write.loop
    split
    · rfl
    · rename_i p hp
      split
      · rfl
      · rw [ih]
        simp [hp]

theorem Write_loop_no_panic :
    ∀ (bs : List (List Nat)) (mc : Microcontroller) (msg : String) (mc1 : Microcontroller),
      mc.ttyPort.isSome = true → Write.loop bs mc ≠ Res.panic msg mc1 := by
  intro bs
  induction bs with
  | nil => intro mc msg mc1 _ h; simp [Write.loop] at h
  | cons b rest ih =>
    intro mc msg mc1 hp
    unfold Write.loop
    split
    · rename_i hnone
      simp [hnone] at hp
    · split
      · intro h; cases h
      · exact ih _ _ _ rfl

theorem Write_frame (bs : List (List Nat)) (mc : Microcontroller) :
    ((Write bs mc).state.stmCmdCodes, (Write bs mc).state.identity,
      (Write bs mc).state.ttyPort.isSome, (Write bs mc).state.ttyRx) =
    (mc.stmCmdCodes, mc.identity, mc.ttyPort.isSome, mc.ttyRx) := by
  unfold Write
  split
  · rfl
  · split
    · rfl
    · exact Write_loop_frame _ _

theorem Write_no_panic (bs : List (List Nat)) (mc : Microcontroller) (hbs : bs ≠ [])
    (msg : String) (mc1 : Microcontroller) :
    Write bs mc ≠ Res.panic msg mc1 := by
  unfold Write
  split
  · intro h; cases h
  · rename_i hopen
    rw [if_neg (by simpa using hbs)]
    have hsome : mc.ttyPort.isSome = true := by
      cases hq : mc.ttyPort with
      | none => simp [IsOpen, hq] at hopen
      | some p => rfl
    exact Write_loop_no_panic _ _ _ _ hsome

theorem stmReadAckOrNack_frame (mc : Microcontroller) :
    ((stmReadAckOrNack mc).state.stmCmdCodes, (stmReadAckOrNack mc).state.identity,
      (stmReadAckOrNack mc).state.ttyPort, (stmReadAckOrNack mc).state.wire) =
    (mc.stmCmdCodes, mc.identity, mc.ttyPort, mc.wire) := by
  have h := ReadN_frame 1 STMTimeout mc
  unfold stmReadAckOrNack
  cases hr : ReadN 1 STMTimeout mc with
  | panic msg m1 => rw [hr] at h; exact h
  | ret v m1 =>
    rw [hr] at h
    cases v with
    | error e => exact h
    | ok bs =>
      simp only
      split
      · split
        · exact h
        · split <;> exact h
      · exact h

theorem stmReadAckOrNack_no_panic (mc : Microcontroller) (msg : String)
    (mc1 : Microcontroller) : stmReadAckOrNack mc ≠ Res.panic msg mc1 := by
  have h := ReadN_no_panic 1 STMTimeout mc (by decide)
  unfold stmReadAckOrNack
  cases hr : ReadN 1 STMTimeout mc with
  | panic msg2 m1 => exact absurd hr (h msg2 m1)
  | ret v m1 =>
    cases v with
    | error e => intro h2; cases h2
    | ok bs =>
      simp only
      split
      · split
        · intro h2; cases h2
        · split <;> (intro h2; cases h2)
      · intro h2; cases h2

theorem stmReadWithLength_frame (mc : Microcontroller) :
    ((stmReadWithLength mc).state.stmCmdCodes, (stmReadWithLength mc).state.identity,
      (stmReadWithLength mc).state.ttyPort, (stmReadWithLength mc).state.wire) =
    (mc.stmCmdCodes, mc.identity, mc.ttyPort, mc.wire) := by
  have h := ReadN_frame 1 STMTimeout mc
  unfold stmReadWithLength
  cases hr : ReadN 1 STMTimeout mc with
  | panic msg m1 => rw [hr] at h; exact h
  | ret v m1 =>
    rw [hr] at h
    cases v with
    | error e => exact h
    | ok n =>
      simp only
      split
      · exact (ReadN_frame _ _ m1).trans h
      · exact h

theorem stmReadWithLength_no_panic (mc : Microcontroller) (msg : String)
    (mc1 : Microcontroller) : stmReadWithLength mc ≠ Res.panic msg mc1 := by
  have h := ReadN_no_panic 1 STMTimeout mc (by decide)
  unfold stmReadWithLength
  cases hr : ReadN 1 STMTimeout mc with
  | panic msg2 m1 => exact absurd hr (h msg2 m1)
  | ret v m1 =>
    cases v with
    | error e => intro h2; cases h2
    | ok n =>
      simp only
      split
      · rename_i n0
        exact ReadN_no_panic _ _ m1 (by simp only [Int.ofNat_eq_coe]; omega) _ _
      · intro h2; cases h2

theorem ReadN_loop_length :
    ∀ (k : Nat) (acc : List Nat) (mc : Microcontroller) (bs : List Nat)
      (mc1 : Microcontroller),
      ReadN.loop k acc mc = Res.ret (Except.ok bs) mc1 → bs.length = acc.length + k := by
  intro k
  induction k with
  | zero =>
    intro acc mc bs mc1 h
    simp only [ReadN.loop, Res.ret.injEq, Except.ok.injEq] at h
    rw [← h.1]
    rfl
  | succ k ih =>
    intro acc mc bs mc1 h
    unfold ReadN.loop at h
    split at h
    · simp at h
    · have := ih _ _ _ _ h
      simp at this
      omega

theorem stmReadWithLength_length (mc mc1 : Microcontroller) (bs : List Nat)
    (h : stmReadWithLength mc = Res.ret (Except.ok bs) mc1) :
    ∃ n0 : Nat, mc.ttyRx.head? = some n0 ∧ bs.length = n0 + 1 := by
  unfold stmReadWithLength at h
  cases hr : ReadN 1 STMTimeout mc with
  | panic msg m1 => rw [hr] at h; simp at h
  | ret v m1 =>
    rw [hr] at h
    cases v with
    | error e => simp at h
    | ok n =>
      simp only at h
      split at h
      · rename_i n0
        refine ⟨n0, ?_, ?_⟩
        · unfold ReadN at hr
          split at hr
          · simp at hr
          · rw [if_neg (by decide)] at hr
            have h1 : (1 : Int).toNat = 1 := rfl
            rw [h1] at hr
            unfold ReadN.loop at hr
            split at hr
            · simp at hr
            · rename_i b q hq
              simp only [ReadN.loop, List.nil_append, Res.ret.injEq, Except.ok.injEq,
                List.cons.injEq, and_true] at hr
              rw [hq, ← hr.1]
              rfl
        · unfold ReadN at h
          split at h
          · simp at h
          · split at h
            · simp at h
            · have := ReadN_loop_length _ _ _ _ _ h
              simp at this
              omega
      · simp at h

theorem frame_of_read (a b : Microcontroller)
    (h : (a.stmCmdCodes, a.identity, a.ttyPort, a.wire) =
      (b.stmCmdCodes, b.identity, b.ttyPort, b.wire)) :
    (a.stmCmdCodes, a.identity, a.ttyPort.isSome) =
      (b.stmCmdCodes, b.identity, b.ttyPort.isSome) := by
  simp only [Prod.mk.injEq] at h ⊢
  exact ⟨h.1, h.2.1, by rw [h.2.2.1]⟩

theorem frame_of_write (a b : Microcontroller)
    (h : (a.stmCmdCodes, a.identity, a.ttyPort.isSome, a.ttyRx) =
      (b.stmCmdCodes, b.identity, b.ttyPort.isSome, b.ttyRx)) :
    (a.stmCmdCodes, a.identity, a.ttyPort.isSome) =
      (b.stmCmdCodes, b.identity, b.ttyPort.isSome) := by
  simp only [Prod.mk.injEq] at h ⊢
  exact ⟨h.1, h.2.1, h.2.2.1⟩

theorem wire_of_read (a b : Microcontroller)
    (h : (a.stmCmdCodes, a.identity, a.ttyPort, a.wire) =
      (b.stmCmdCodes, b.identity, b.ttyPort, b.wire)) : a.wire = b.wire := by
  simp only [Prod.mk.injEq] at h
  exact h.2.2.2

theorem drop_codes (a b : Microcontroller)
    (h : (a.stmCmdCodes, a.identity, a.ttyPort.isSome) =
      (b.stmCmdCodes, b.identity, b.ttyPort.isSome)) :
    (a.identity, a.ttyPort.isSome) = (b.identity, b.ttyPort.isSome) := by
  simp only [Prod.mk.injEq] at h ⊢
  exact h.2

theorem codes_of_frame (a b : Microcontroller)
    (h : (a.stmCmdCodes, a.identity, a.ttyPort.isSome) =
      (b.stmCmdCodes, b.identity, b.ttyPort.isSome)) : a.stmCmdCodes = b.stmCmdCodes := by
  simp only [Prod.mk.injEq] at h
  exact h.1

theorem stmCommandSequence_known (mc : Microcontroller) (c : CommandCode)
    (hc : c = CommandCodeSync ∨ defaultCmdCodeMap.get c ≠ none) :
    stmCommandSequence mc c ≠ none := by
  unfold stmCommandSequence
  by_cases hs : c = CommandCodeSync
  · simp [hs]
  · rw [if_neg hs]
    cases h1 : mc.stmCmdCodes.get c with
    | some b => simp
    | none =>
      simp only
      cases h2 : defaultCmdCodeMap.get c with
      | some b => simp
      | none =>
        rcases hc with h | h
        · exact absurd h hs
        · exact absurd h2 h

theorem stmCommandSequence_GetID (mc : Microcontroller) :
    stmCommandSequence mc CommandCodeGetID =
      some [(mc.stmCmdCodes.get CommandCodeGetID).getD 0x02,
            (mc.stmCmdCodes.get CommandCodeGetID).getD 0x02 ^^^ 0xff] := by
  unfold stmCommandSequence
  rw [if_neg (by decide)]
  cases h : mc.stmCmdCodes.get CommandCodeGetID with
  | none =>
    have hd : defaultCmdCodeMap.get CommandCodeGetID = some 0x02 := by decide
    simp [hd]
  | some op => simp [Nat.xor_comm]

theorem stmExecCmd_frame (c : CommandCode) (mc : Microcontroller) :
    ((stmExecCmd c mc).state.stmCmdCodes, (stmExecCmd c mc).state.identity,
      (stmExecCmd c mc).state.ttyPort.isSome) =
    (mc.stmCmdCodes, mc.identity, mc.ttyPort.isSome) := by
  unfold stmExecCmd
  cases hseq : stmCommandSequence mc c with
  | none => rfl
  | some seq =>
    simp only
    have hw := frame_of_write _ _ (Write_frame [seq] mc)
    cases hres : Write [seq] mc with
    | panic msg m1 => rw [hres] at hw; exact hw
    | ret v m1 =>
      rw [hres] at hw
      cases v with
      | some e => exact hw
      | none =>
        have hr := frame_of_read _ _ (stmReadAckOrNack_frame m1)
        simp only
        cases hres2 : stmReadAckOrNack m1 with
        | panic msg m2 => rw [hres2] at hr; exact hr.trans hw
        | ret v2 m2 =>
          rw [hres2] at hr
          cases v2 <;> exact hr.trans hw

theorem stmExecCmd_no_panic (c : CommandCode) (mc : Microcontroller)
    (hc : stmCommandSequence mc c ≠ none) (msg : String) (mc1 : Microcontroller) :
    stmExecCmd c mc ≠ Res.panic msg mc1 := by
  unfold stmExecCmd
  cases hseq : stmCommandSequence mc c with
  | none => exact absurd hseq hc
  | some seq =>
    simp only
    cases hres : Write [seq] mc with
    | panic msg2 m1 => exact absurd hres (Write_no_panic _ _ (by simp) _ _)
    | ret v m1 =>
      cases v with
      | some e => intro h; cases h
      | none =>
        simp only
        cases hres2 : stmReadAckOrNack m1 with
        | panic msg2 m2 => exact absurd hres2 (stmReadAckOrNack_no_panic _ _ _)
        | ret v2 m2 => cases v2 <;> (intro h; cases h)

theorem stmCmdGetId_frame (mc : Microcontroller) :
    ((stmCmdGetId mc).state.stmCmdCodes, (stmCmdGetId mc).state.identity,
      (stmCmdGetId mc).state.ttyPort.isSome) =
    (mc.stmCmdCodes, mc.identity, mc.ttyPort.isSome) := by
  unfold stmCmdGetId
  have h1 := stmExecCmd_frame CommandCodeGetID mc
  cases hres : stmExecCmd CommandCodeGetID mc with
  | panic msg m1 => rw [hres] at h1; exact h1
  | ret v m1 =>
    rw [hres] at h1
    cases v with
    | some e => exact h1
    | none =>
      simp only
      have h2 := frame_of_read _ _ (stmReadWithLength_frame m1)
      cases hres2 : stmReadWithLength m1 with
      | panic msg m2 => rw [hres2] at h2; exact h2.trans h1
      | ret v2 m2 =>
        rw [hres2] at h2
        cases v2 with
        | error e => exact h2.trans h1
        | ok bs =>
          simp only
          have h3 := frame_of_read _ _ (stmReadAckOrNack_frame m2)
          cases hres3 : stmReadAckOrNack m2 with
          | panic msg m3 => rw [hres3] at h3; exact (h3.trans h2).trans h1
          | ret v3 m3 =>
            rw [hres3] at h3
            cases v3 <;> exact (h3.trans h2).trans h1

theorem stmCmdGetId_wire (mc : Microcontroller)
    (hp : mc.ttyPort = some { writesLeft := none }) :
    (stmCmdGetId mc).state.wire =
      mc.wire ++ [[(mc.stmCmdCodes.get CommandCodeGetID).getD 0x02,
                   (mc.stmCmdCodes.get CommandCodeGetID).getD 0x02 ^^^ 0xff]] := by
  unfold stmCmdGetId stmExecCmd
  rw [stmCommandSequence_GetID mc]
  simp only
  rw [Write_one _ mc hp]
  simp only
  have h1 := wire_of_read _ _ (stmReadAckOrNack_frame
    { mc with wire := mc.wire ++ [[(mc.stmCmdCodes.get CommandCodeGetID).getD 0x02,
                   (mc.stmCmdCodes.get CommandCodeGetID).getD 0x02 ^^^ 0xff]] })
  cases hres : stmReadAckOrNack
    { mc with wire := mc.wire ++ [[(mc.stmCmdCodes.get CommandCodeGetID).getD 0x02,
                   (mc.stmCmdCodes.get CommandCodeGetID).getD 0x02 ^^^ 0xff]] } with
  | panic msg m1 => rw [hres] at h1; exact h1
  | ret v m1 =>
    rw [hres] at h1
    cases v with
    | some e => exact h1
    | none =>
      simp only
      have h2 := wire_of_read _ _ (stmReadWithLength_frame m1)
      cases hres2 : stmReadWithLength m1 with
      | panic msg m2 => rw [hres2] at h2; exact h2.trans h1
      | ret v2 m2 =>
        rw [hres2] at h2
        cases v2 with
        | error e => exact h2.trans h1
        | ok bs =>
          simp only
          have h3 := wire_of_read _ _ (stmReadAckOrNack_frame m2)
          cases hres3 : stmReadAckOrNack m2 with
          | panic msg m3 => rw [hres3] at h3; exact (h3.trans h2).trans h1
          | ret v3 m3 =>
            rw [hres3] at h3
            cases v3 <;> exact (h3.trans h2).trans h1

theorem stmCmdEraseMemory_frame (mc : Microcontroller) :
    ((stmCmdEraseMemory mc).state.stmCmdCodes, (stmCmdEraseMemory mc).state.identity,
      (stmCmdEraseMemory mc).state.ttyPort.isSome) =
    (mc.stmCmdCodes, mc.identity, mc.ttyPort.isSome) := by
  unfold stmCmdEraseMemory
  have h1 := stmExecCmd_frame CommandCodeErase mc
  cases hres : stmExecCmd CommandCodeErase mc with
  | panic msg m1 => rw [hres] at h1; exact h1
  | ret v m1 =>
    rw [hres] at h1
    cases v with
    | some e => exact h1
    | none =>
      simp only
      have h2 := frame_of_write _ _ (Write_frame [[0xff, 0x00]] m1)
      cases hres2 : Write [[0xff, 0x00]] m1 with
      | panic msg m2 => rw [hres2] at h2; exact h2.trans h1
      | ret v2 m2 =>
        rw [hres2] at h2
        cases v2 with
        | some e => exact h2.trans h1
        | none => exact ((frame_of_read _ _ (stmReadAckOrNack_frame m2)).trans h2).trans h1

theorem stmCmdWriteMemory_frame (addr : Nat) (data : List Nat) (mc : Microcontroller) :
    ((stmCmdWriteMemory addr data mc).state.stmCmdCodes,
      (stmCmdWriteMemory addr data mc).state.identity,
      (stmCmdWriteMemory addr data mc).state.ttyPort.isSome) =
    (mc.stmCmdCodes, mc.identity, mc.ttyPort.isSome) := by
  unfold stmCmdWriteMemory
  have h1 := stmExecCmd_frame CommandCodeWriteMemory mc
  cases hres : stmExecCmd CommandCodeWriteMemory mc with
  | panic msg m1 => rw [hres] at h1; exact h1
  | ret v m1 =>
    rw [hres] at h1
    cases v with
    | some e => exact h1
    | none =>
      simp only
      have h2 := frame_of_write _ _
        (Write_frame [bigEndian32 addr ++ [checksum (bigEndian32 addr)]] m1)
      cases hres2 : Write [bigEndian32 addr ++ [checksum (bigEndian32 addr)]] m1 with
      | panic msg m2 => rw [hres2] at h2; exact h2.trans h1
      | ret v2 m2 =>
        rw [hres2] at h2
        cases v2 with
        | some e => exact h2.trans h1
        | none =>
          simp only
          have h3 := frame_of_read _ _ (stmReadAckOrNack_frame m2)
          cases hres3 : stmReadAckOrNack m2 with
          | panic msg m3 => rw [hres3] at h3; exact (h3.trans h2).trans h1
          | ret v3 m3 =>
            rw [hres3] at h3
            cases v3 with
            | some e => exact (h3.trans h2).trans h1
            | none =>
              simp only
              have h4 := frame_of_write _ _ (Write_frame
                [[(((data.length : Int) - 1) % 256).toNat] ++ data ++
                  [checksum ([(((data.length : Int) - 1) % 256).toNat] ++ data)]] m3)
              unfold stmWriteWithNAndChecksum stmWriteWithChecksum
              simp only
              cases hres4 : Write
                [[(((data.length : Int) - 1) % 256).toNat] ++ data ++
                  [checksum ([(((data.length : Int) - 1) % 256).toNat] ++ data)]] m3 with
              | panic msg m4 => rw [hres4] at h4; exact ((h4.trans h3).trans h2).trans h1
              | ret v4 m4 =>
                rw [hres4] at h4
                cases v4 with
                | some e => exact ((h4.trans h3).trans h2).trans h1
                | none =>
                  simp only
                  have h5 := frame_of_read _ _ (stmReadAckOrNack_frame m4)
                  cases hres5 : stmReadAckOrNack m4 with
                  | panic msg m5 =>
                    rw [hres5] at h5
                    exact (((h5.trans h4).trans h3).trans h2).trans h1
                  | ret v5 m5 =>
                    rw [hres5] at h5
                    exact (((h5.trans h4).trans h3).trans h2).trans h1

theorem stmFlash_loop_frame (bs : List Nat) (addr : Nat) :
    ∀ (is : List Nat) (mc : Microcontroller),
      ((stmFlash.loop bs addr is mc).state.stmCmdCodes,
        (stmFlash.loop bs addr is mc).state.identity,
        (stmFlash.loop bs addr is mc).state.ttyPort.isSome) =
      (mc.stmCmdCodes, mc.identity, mc.ttyPort.isSome) := by
  intro is
  induction is with
  | nil => intro mc; rfl
  | cons i is ih =>
    intro mc
    unfold stmFlash.loop
    cases hb : stmFlash.block bs i with
    | none => rfl
    | some data =>
      simp only
      have h1 := stmCmdWriteMemory_frame (stmFlash.segAddr addr i) data mc
      cases hres : stmCmdWriteMemory (stmFlash.segAddr addr i) data mc with
      | panic msg m1 => rw [hres] at h1; exact h1
      | ret v m1 =>
        rw [hres] at h1
        cases v with
        | some e => exact h1
        | none => exact (ih m1).trans h1

theorem stmFlash_frame (bs : List Nat) (addr : Nat) (mc : Microcontroller) :
    ((stmFlash bs addr mc).state.stmCmdCodes, (stmFlash bs addr mc).state.identity,
      (stmFlash bs addr mc).state.ttyPort.isSome) =
    (mc.stmCmdCodes, mc.identity, mc.ttyPort.isSome) := by
  unfold stmFlash
  have h1 := stmCmdEraseMemory_frame mc
  cases hres : stmCmdEraseMemory mc with
  | panic msg m1 => rw [hres] at h1; exact h1
  | ret v m1 =>
    rw [hres] at h1
    cases v with
    | some e => exact h1
    | none => exact (stmFlash_loop_frame bs addr _ m1).trans h1

/-! ## Open, Close and Identify lemmas -/

theorem stmCmdGet_outcome (mc : Microcontroller) :
    (∀ msg mc1, stmCmdGet mc ≠ Res.panic msg mc1) ∧
    ((stmCmdGet mc).state.identity, (stmCmdGet mc).state.ttyPort.isSome) =
      (mc.identity, mc.ttyPort.isSome) := by
  unfold stmCmdGet
  have h1 := drop_codes _ _ (stmExecCmd_frame CommandCodeGet mc)
  have n1 := stmExecCmd_no_panic CommandCodeGet mc
    (stmCommandSequence_known mc _ (Or.inr (by decide)))
  cases hres : stmExecCmd CommandCodeGet mc with
  | panic msg m1 => exact absurd hres (n1 _ _)
  | ret v m1 =>
    rw [hres] at h1
    cases v with
    | some e => exact ⟨(fun _ _ h => by cases h), h1⟩
    | none =>
      simp only
      have h2 := drop_codes _ _ (frame_of_read _ _ (stmReadWithLength_frame m1))
      cases hres2 : stmReadWithLength m1 with
      | panic msg m2 => exact absurd hres2 (stmReadWithLength_no_panic _ _ _)
      | ret v2 m2 =>
        rw [hres2] at h2
        cases v2 with
        | error e => exact ⟨(fun _ _ h => by cases h), h2.trans h1⟩
        | ok bs =>
          simp only
          obtain ⟨n0, _, hlen⟩ := stmReadWithLength_length m1 m2 bs hres2
          have h3 := drop_codes _ _ (frame_of_read _ _ (stmReadAckOrNack_frame m2))
          cases hres3 : stmReadAckOrNack m2 with
          | panic msg m3 => exact absurd hres3 (stmReadAckOrNack_no_panic _ _ _)
          | ret v3 m3 =>
            rw [hres3] at h3
            cases v3 with
            | some e => exact ⟨(fun _ _ h => by cases h), (h3.trans h2).trans h1⟩
            | none =>
              simp only
              have hv : bs[0]? = some (bs[0]) := List.getElem?_eq_getElem (by omega)
              rw [hv]
              simp only
              obtain ⟨codes, hc, _, _⟩ := stmCmdGet_loop_ok bs (bs.length - 1) 0
                { m3 with stmBootloaderVersion := bs[0] } (by omega)
              rw [hc]
              exact ⟨(fun _ _ h => by cases h), (h3.trans h2).trans h1⟩

theorem stmInit_outcome (mc : Microcontroller) :
    (∀ msg mc1, stmInit mc ≠ Res.panic msg mc1) ∧
    ((stmInit mc).state.identity, (stmInit mc).state.ttyPort.isSome) =
      (mc.identity, mc.ttyPort.isSome) := by
  unfold stmInit stmCmdSync
  simp only
  have h1 := drop_codes _ _ (stmExecCmd_frame CommandCodeSync (enterSTBL mc))
  have n1 := stmExecCmd_no_panic CommandCodeSync (enterSTBL mc)
    (stmCommandSequence_known _ _ (Or.inl rfl))
  have h0 : ((enterSTBL mc).identity, (enterSTBL mc).ttyPort.isSome) =
      (mc.identity, mc.ttyPort.isSome) := rfl
  cases hres : stmExecCmd CommandCodeSync (enterSTBL mc) with
  | panic msg m1 => exact absurd hres (n1 _ _)
  | ret v m1 =>
    rw [hres] at h1
    cases v with
    | some e => exact ⟨(fun _ _ h => by cases h), h1.trans h0⟩
    | none =>
      have hg := stmCmdGet_outcome m1
      exact ⟨hg.1, (hg.2.trans h1).trans h0⟩

theorem Close_frame (mc : Microcontroller) :
    (Close mc).state.stmCmdCodes = mc.stmCmdCodes ∧
    (Close mc).state.identity = mc.identity ∧
    (Close mc).state.ttyPort = none := by
  unfold Close exitSTBL
  by_cases h : mc.ttyPort.isSome
  · simp [h, Res.state]
  · simp only [Res.state, h]
    simpa using h

theorem setupPins_outcome (w : World) (mc : Microcontroller) :
    (∀ msg mc1, setupPins w mc ≠ Res.panic msg mc1) ∧
    (setupPins w mc).state.stmCmdCodes = mc.stmCmdCodes ∧
    (setupPins w mc).state.identity = mc.identity ∧
    (setupPins w mc).state.ttyPort = mc.ttyPort ∧
    (setupPins w mc).state.wire = mc.wire := by
  unfold setupPins
  cases w.gpioPower <;> cases w.gpioBoot0 <;> cases w.gpioBoot1 <;>
    exact ⟨(fun _ _ h => by cases h), rfl, rfl, rfl, rfl⟩

theorem Open_outcome (w : World) (mc : Microcontroller) :
    (∀ msg mc1, Open w mc ≠ Res.panic msg mc1) ∧
    (Open w mc).state.identity = mc.identity ∧
    (∀ mc1, Open w mc = Res.ret none mc1 → IsOpen mc1 = true) ∧
    (∀ e mc1, IsOpen mc = false → Open w mc = Res.ret (some e) mc1 → IsOpen mc1 = false) := by
  unfold Open
  obtain ⟨np, _, hid, hport, _⟩ := setupPins_outcome w mc
  cases hres : setupPins w mc with
  | panic msg m1 => exact absurd hres (np _ _)
  | ret v m1 =>
    rw [hres] at hid hport
    simp only [Res.state] at hid hport
    cases v with
    | some e =>
      refine ⟨(fun _ _ h => by cases h), hid, (fun _ h => by cases h), ?_⟩
      intro e2 mc1 hclosed h
      simp only [Wrap, Res.ret.injEq] at h
      rw [← h.2]
      simpa [IsOpen, hport] using hclosed
    | none =>
      simp only
      cases hser : w.serial with
      | error e =>
        refine ⟨(fun _ _ h => by cases h), hid, (fun _ h => by cases h), ?_⟩
        intro e2 mc1 _ h
        simp only [Wrap, Res.ret.injEq] at h
        rw [← h.2]
        rfl
      | ok port =>
        simp only
        obtain ⟨ni, hi⟩ := stmInit_outcome
          { m1 with ttyPort := some port, ttyRx := w.incoming, ttyActive := true }
        simp only [Prod.mk.injEq] at hi
        cases hinit : stmInit
            { m1 with ttyPort := some port, ttyRx := w.incoming, ttyActive := true } with
        | panic msg m4 => exact absurd hinit (ni _ _)
        | ret v4 m4 =>
          rw [hinit] at hi
          simp only [Res.state] at hi
          cases v4 with
          | some e =>
            refine ⟨(fun _ _ h => by cases h), ?_, (fun _ h => by cases h), ?_⟩
            · simp only [Res.state]
              exact ((Close_frame m4).2.1.trans hi.1).trans hid
            · intro e2 mc1 _ h
              simp only [Wrap, Res.ret.injEq] at h
              rw [← h.2]
              simp [IsOpen, (Close_frame m4).2.2]
          | none =>
            refine ⟨(fun _ _ h => by cases h), hi.1.trans hid, ?_, (fun _ _ _ h => by cases h)⟩
            intro mc1 h
            simp only [Res.ret.injEq, true_and] at h
            rw [← h]
            simpa [IsOpen] using hi.2

theorem Open_handshake (p rest : List Nat) (w : World) (mc : Microcontroller)
    (hm : 1 ≤ p.length)
    (hpower : w.gpioPower = none) (hboot0 : w.gpioBoot0 = none) (hboot1 : w.gpioBoot1 = none)
    (hserial : w.serial = Except.ok { writesLeft := none })
    (hin : w.incoming =
      b_STM_ACK :: b_STM_ACK :: (p.length - 1) :: (p ++ b_STM_ACK :: rest)) :
    ∃ mc1, Open w mc = Res.ret none mc1 ∧
      p[0]? = some mc1.stmBootloaderVersion ∧
      (∀ i : Nat, i + 1 < p.length → mc1.stmCmdCodes.get (Int.ofNat i) = p[i + 1]?) ∧
      (∀ c : Int, (c < 0 ∨ (p.length : Int) - 1 ≤ c) →
        mc1.stmCmdCodes.get c = mc.stmCmdCodes.get c) ∧
      IsOpen mc1 = true ∧
      mc1.ttyRx = rest ∧
      mc1.wire = mc.wire ++
        [[0x7f], [(mc.stmCmdCodes.get CommandCodeGet).getD 0x00,
                  (mc.stmCmdCodes.get CommandCodeGet).getD 0x00 ^^^ 0xff]] := by
  obtain ⟨pp, pb0, pb1, codes0, ver, port, rx, act, ident, wire⟩ := mc
  have hsync := stmExecCmd_cons CommandCodeSync [0x7f] b_STM_ACK
    (b_STM_ACK :: (p.length - 1) :: (p ++ b_STM_ACK :: rest))
    { pinPower := some true, pinBoot0 := some true, pinBoot1 := some false,
      stmCmdCodes := codes0, stmBootloaderVersion := ver,
      ttyPort := some { writesLeft := none },
      ttyRx := b_STM_ACK :: b_STM_ACK :: (p.length - 1) :: (p ++ b_STM_ACK :: rest),
      ttyActive := true, identity := ident, wire := wire }
    rfl (stmCommandSequence_Sync _) rfl
  simp only [if_true] at hsync
  obtain ⟨v, codes, hget, hv, hcodes, hother⟩ := stmCmdGet_ok p rest
    { pinPower := some true, pinBoot0 := some true, pinBoot1 := some false,
      stmCmdCodes := codes0, stmBootloaderVersion := ver,
      ttyPort := some { writesLeft := none },
      ttyRx := b_STM_ACK :: (p.length - 1) :: (p ++ b_STM_ACK :: rest),
      ttyActive := true, identity := ident, wire := wire ++ [[0x7f]] }
    hm rfl rfl
  refine Exists.intro
    { pinPower := some true, pinBoot0 := some true, pinBoot1 := some false,
      stmCmdCodes := codes, stmBootloaderVersion := v,
      ttyPort := some { writesLeft := none }, ttyRx := rest,
      ttyActive := true, identity := ident,
      wire := wire ++ [[0x7f]] ++ [[(commandCodeMap.get codes0 CommandCodeGet).getD 0x00,
        (commandCodeMap.get codes0 CommandCodeGet).getD 0x00 ^^^ 0xff]] }
    ⟨?_, ?_, ?_, ?_, ?_, ?_, ?_⟩
  · simp only [Open, setupPins, hpower, hboot0, hboot1, hserial, hin, stmInit, enterSTBL,
      stmCmdSync, hsync, hget]
  · exact hv
  · exact hcodes
  · exact hother
  · rfl
  · rfl
  · simp

theorem STM_ne_empty (pid : String) : "STM_" ++ pid ≠ "" := by
  intro h
  have h2 := congrArg String.length h
  simp only [String.length_append] at h2
  have h3 : "STM_".length = 4 := by decide
  have h4 : "".length = 0 := by decide
  omega

theorem Identify_open_state (w : World) (mc : Microcontroller)
    (hid : mc.identity = "") (hopen : IsOpen mc = true) :
    (Identify w mc).state.stmCmdCodes = (stmCmdGetId mc).state.stmCmdCodes ∧
    (Identify w mc).state.ttyPort = (stmCmdGetId mc).state.ttyPort ∧
    (Identify w mc).state.wire = (stmCmdGetId mc).state.wire := by
  unfold Identify
  rw [if_neg (by simp [hid])]
  simp only [hopen, Bool.not_true, Bool.false_eq_true, if_false]
  cases hres : stmCmdGetId mc with
  | panic msg m1 => exact ⟨rfl, rfl, rfl⟩
  | ret v m1 =>
    obtain ⟨pid, e⟩ := v
    cases e <;> exact ⟨rfl, rfl, rfl⟩

theorem Identify_closed_state (w : World) (mc mc1 : Microcontroller)
    (hid : mc.identity = "") (hclosed : IsOpen mc = false)
    (hopen : Open w mc = Res.ret none mc1) :
    (Identify w mc).state.wire = (stmCmdGetId mc1).state.wire ∧
    IsOpen (Identify w mc).state = false := by
  unfold Identify
  rw [if_neg (by simp [hid])]
  simp only [hclosed, Bool.not_false, if_true, hopen]
  cases hres : stmCmdGetId mc1 with
  | panic msg m1 => exact ⟨(Close_wire _).1, (Close_wire _).2⟩
  | ret v m1 =>
    obtain ⟨pid, e⟩ := v
    cases e <;> exact ⟨(Close_wire _).1, (Close_wire _).2⟩

theorem Identify_success (w : World) (mc mc1 : Microcontroller) (s : String)
    (h : Identify w mc = Res.ret (s, none) mc1) :
    mc1.identity = s ∧ s ≠ "" := by
  unfold Identify at h
  by_cases hid : mc.identity = ""
  · rw [if_neg (by simp [hid])] at h
    split at h
    · cases hopen : Open w mc with
      | panic msg m1 => rw [hopen] at h; cases h
      | ret v m1 =>
        rw [hopen] at h
        cases v with
        | some e => cases h
        | none =>
          simp only at h
          cases hres : stmCmdGetId m1 with
          | panic msg m2 => rw [hres] at h; cases h
          | ret v2 m2 =>
            rw [hres] at h
            obtain ⟨pid, e⟩ := v2
            cases e with
            | some e => cases h
            | none =>
              simp only [Res.ret.injEq, Prod.mk.injEq, and_true] at h
              rw [← h.2, ← h.1]
              exact ⟨(Close_frame _).2.1, STM_ne_empty pid⟩
    · cases hres : stmCmdGetId mc with
      | panic msg m2 => rw [hres] at h; cases h
      | ret v2 m2 =>
        rw [hres] at h
        obtain ⟨pid, e⟩ := v2
        cases e with
        | some e => cases h
        | none =>
          simp only [Res.ret.injEq, Prod.mk.injEq, and_true] at h
          rw [← h.2, ← h.1]
          exact ⟨rfl, STM_ne_empty pid⟩
  · rw [if_pos (by simpa using hid)] at h
    simp only [Res.ret.injEq, Prod.mk.injEq, and_true] at h
    rw [← h.2, ← h.1]
    exact ⟨rfl, hid⟩

theorem Identify_failure (w : World) (mc mc1 : Microcontroller) (s : String) (e : Err)
    (hid : mc.identity = "") (h : Identify w mc = Res.ret (s, some e) mc1) :
    s = "" ∧ mc1.identity = "" := by
  unfold Identify at h
  rw [if_neg (by simp [hid])] at h
  split at h
  · have ho := (Open_outcome w mc).2.1
    cases hopen : Open w mc with
    | panic msg m1 => rw [hopen] at h; cases h
    | ret v m1 =>
      rw [hopen] at h ho
      simp only [Res.state] at ho
      cases v with
      | some e2 =>
        simp only [Res.ret.injEq, Prod.mk.injEq] at h
        rw [← h.2, ← h.1.1]
        exact ⟨rfl, ho.trans hid⟩
      | none =>
        simp only at h
        have hg := stmCmdGetId_frame m1
        cases hres : stmCmdGetId m1 with
        | panic msg m2 => rw [hres] at h; cases h
        | ret v2 m2 =>
          rw [hres] at h hg
          simp only [Res.state, Prod.mk.injEq] at hg
          obtain ⟨pid, e3⟩ := v2
          cases e3 with
          | none => simp at h
          | some e3 =>
            simp only [Res.ret.injEq, Prod.mk.injEq] at h
            rw [← h.2, ← h.1.1]
            exact ⟨rfl, ((Close_frame m2).2.1.trans hg.2.1).trans (ho.trans hid)⟩
  · have hg := stmCmdGetId_frame mc
    cases hres : stmCmdGetId mc with
    | panic msg m2 => rw [hres] at h; cases h
    | ret v2 m2 =>
      rw [hres] at h hg
      simp only [Res.state, Prod.mk.injEq] at hg
      obtain ⟨pid, e3⟩ := v2
      cases e3 with
      | none => simp at h
      | some e3 =>
        simp only [Res.ret.injEq, Prod.mk.injEq] at h
        rw [← h.2, ← h.1.1]
        exact ⟨rfl, hg.2.1.trans hid⟩

/-! ## The background reader and the timers of ReadN -/

theorem isOpen_of_frame (a b : Microcontroller)
    (h : (a.stmCmdCodes, a.identity, a.ttyPort.isSome) =
      (b.stmCmdCodes, b.identity, b.ttyPort.isSome)) : IsOpen a = IsOpen b := by
  simp only [Prod.mk.injEq] at h
  exact h.2.2

theorem rx_onError_outcome (err : ReadFailure) (mc : Microcontroller) :
    IsOpen (rx.onError err mc) = false ∧
    (rx.onError err mc).identity = mc.identity ∧
    (rx.onError err mc).stmCmdCodes = mc.stmCmdCodes ∧
    (rx.onError err mc).wire = mc.wire := by
  cases err
  · exact ⟨(Close_wire _).2, (Close_frame _).2.1, (Close_frame _).1, (Close_wire _).1⟩
  · exact ⟨(Close_wire _).2, (Close_frame _).2.1, (Close_frame _).1, (Close_wire _).1⟩
  · exact ⟨(Close_wire _).2, (Close_frame _).2.1, (Close_frame _).1, (Close_wire _).1⟩

theorem stmExecCmd_closed (c : CommandCode) (seq : List Nat) (mc : Microcontroller)
    (hclosed : IsOpen mc = false) (hseq : stmCommandSequence mc c = some seq) :
    stmExecCmd c mc = Res.ret (some ErrClosed) mc := by
  simp [stmExecCmd, hseq, Write, hclosed]

theorem stmFlash_closed (bs : List Nat) (addr : Nat) (mc : Microcontroller)
    (hclosed : IsOpen mc = false) :
    stmFlash bs addr mc =
      Res.ret (some (Err.wrap ErrClosed "could not erase memory")) mc := by
  simp only [stmFlash, stmCmdEraseMemory,
    stmExecCmd_closed _ _ mc hclosed (stmCommandSequence_Erase mc), Wrap]

theorem stmCmdGetId_closed (mc : Microcontroller) (hclosed : IsOpen mc = false) :
    stmCmdGetId mc = Res.ret ("", some ErrClosed) mc := by
  simp only [stmCmdGetId, stmExecCmd_closed _ _ mc hclosed (stmCommandSequence_GetID mc)]

theorem facade_keeps_link_status (w : World) (bs : List Nat) (addr : Nat)
    (mc : Microcontroller) :
    IsOpen (FlashPayload w bs addr mc).state = IsOpen mc ∧
    IsOpen (Identify w mc).state = IsOpen mc ∧
    (∀ mc1, IsOpen mc = false → Open w mc = Res.ret none mc1 →
      IsOpen mc1 = true ∧
      (FlashPayload w bs addr mc).state = (Close (stmFlash bs addr mc1).state).state) := by
  obtain ⟨np, _, hok, herr⟩ := Open_outcome w mc
  refine ⟨?_, ?_, ?_⟩
  · unfold FlashPayload
    cases hopen : IsOpen mc with
    | true =>
      simp only [Bool.not_true, Bool.false_eq_true, if_false]
      have hf := stmFlash_frame bs addr mc
      simp only [Prod.mk.injEq] at hf
      simp only [IsOpen] at hopen ⊢
      rw [hf.2.2, hopen]
    | false =>
      simp only [Bool.not_false, if_true]
      cases hres : Open w mc with
      | panic msg m1 => exact absurd hres (np _ _)
      | ret v m1 =>
        cases v with
        | some e => exact herr e m1 hopen hres
        | none =>
          simp only
          cases hfl : stmFlash bs addr m1 with
          | panic msg m2 => exact (Close_wire _).2
          | ret v2 m2 => exact (Close_wire _).2
  · unfold Identify
    by_cases hid : mc.identity = ""
    · rw [if_neg (by simp [hid])]
      cases hopen : IsOpen mc with
      | true =>
        simp only [Bool.not_true, Bool.false_eq_true, if_false]
        have hg := stmCmdGetId_frame mc
        simp only [Prod.mk.injEq] at hg
        simp only [IsOpen] at hopen
        cases hres : stmCmdGetId mc with
        | panic msg m2 =>
          rw [hres] at hg
          simp only [Res.state, IsOpen] at hg ⊢
          rw [hg.2.2, hopen]
        | ret v2 m2 =>
          rw [hres] at hg
          obtain ⟨pid, e⟩ := v2
          cases e <;>
            (simp only [Res.state, IsOpen] at hg ⊢
             rw [hg.2.2, hopen])
      | false =>
        simp only [Bool.not_false, if_true]
        cases hres : Open w mc with
        | panic msg m1 => exact absurd hres (np _ _)
        | ret v m1 =>
          cases v with
          | some e => exact herr e m1 hopen hres
          | none =>
            simp only
            cases hg : stmCmdGetId m1 with
            | panic msg m2 => exact (Close_wire _).2
            | ret v2 m2 =>
              obtain ⟨pid, e⟩ := v2
              cases e <;> exact (Close_wire _).2
    · rw [if_pos (by simpa using hid)]
      rfl
  · intro mc1 hclosed hopen
    refine ⟨hok mc1 hopen, ?_⟩
    unfold FlashPayload
    simp only [hclosed, Bool.not_false, if_true, hopen]
    cases hfl : stmFlash bs addr mc1 <;> rfl

theorem readerFails_closed_session (err : ReadFailure) (w : World) (bs : List Nat)
    (addr : Nat) (mc : Microcontroller) (hclosed : IsOpen mc = false) :
    IsOpen (FlashPayload.readerFails err w bs addr mc).state = false ∧
    IsOpen (Identify.readerFails err w mc).state = false := by
  obtain ⟨np, _, _, herr⟩ := Open_outcome w mc
  constructor
  · unfold FlashPayload.readerFails
    simp only [hclosed, Bool.not_false, if_true]
    cases hres : Open w mc with
    | panic msg m1 => exact absurd hres (np _ _)
    | ret v m1 =>
      cases v with
      | some e => exact herr e m1 hclosed hres
      | none =>
        simp only
        cases hfl : stmFlash bs addr (rx.onError err m1) with
        | panic msg m2 => exact (Close_wire _).2
        | ret v2 m2 => exact (Close_wire _).2
  · unfold Identify.readerFails
    by_cases hid : mc.identity = ""
    · rw [if_neg (by simp [hid])]
      simp only [hclosed, Bool.not_false, if_true]
      cases hres : Open w mc with
      | panic msg m1 => exact absurd hres (np _ _)
      | ret v m1 =>
        cases v with
        | some e => exact herr e m1 hclosed hres
        | none =>
          simp only
          cases hg : stmCmdGetId (rx.onError err m1) with
          | panic msg m2 => exact (Close_wire _).2
          | ret v2 m2 =>
            obtain ⟨pid, e⟩ := v2
            cases e <;> exact (Close_wire _).2
    · rw [if_pos (by simpa using hid)]
      exact hclosed

theorem Open_error_closes (w : World) (mc mc3 : Microcontroller) (e : Err)
    (hpower : w.gpioPower = none) (hboot0 : w.gpioBoot0 = none) (hboot1 : w.gpioBoot1 = none)
    (h : Open w mc = Res.ret (some e) mc3) : IsOpen mc3 = false := by
  unfold Open at h
  simp only [setupPins, hpower, hboot0, hboot1] at h
  cases hser : w.serial with
  | error e2 =>
    rw [hser] at h
    simp only [Wrap, Res.ret.injEq] at h
    rw [← h.2]
    rfl
  | ok port =>
    rw [hser] at h
    simp only at h
    split at h
    · cases h
    · simp only [Wrap, Res.ret.injEq] at h
      rw [← h.2]
      exact (Close_wire _).2
    · cases h

theorem Open_silent (w : World) (mc : Microcontroller)
    (hpower : w.gpioPower = none) (hboot0 : w.gpioBoot0 = none) (hboot1 : w.gpioBoot1 = none)
    (hserial : w.serial = Except.ok { writesLeft := none }) (hin : w.incoming = []) :
    ∃ mc3, Open w mc =
        Res.ret (some (Err.wrap ErrTimeout "could not init stm chip")) mc3 ∧
      IsOpen mc3 = false ∧ mc3.wire = mc.wire ++ [[0x7f]] ∧
      mc3.stmCmdCodes = mc.stmCmdCodes := by
  obtain ⟨pp, pb0, pb1, codes0, ver, port, rx, act, ident, wire⟩ := mc
  have hw := Write_one [0x7f]
    { pinPower := some true, pinBoot0 := some true, pinBoot1 := some false,
      stmCmdCodes := codes0, stmBootloaderVersion := ver,
      ttyPort := some { writesLeft := none },
      ttyRx := [], ttyActive := true, identity := ident, wire := wire } rfl
  have hr := stmReadAckOrNack_nil
    { pinPower := some true, pinBoot0 := some true, pinBoot1 := some false,
      stmCmdCodes := codes0, stmBootloaderVersion := ver,
      ttyPort := some { writesLeft := none },
      ttyRx := [], ttyActive := true, identity := ident, wire := wire ++ [[0x7f]] } rfl rfl
  have hopen : Open w
      { pinPower := pp, pinBoot0 := pb0, pinBoot1 := pb1, stmCmdCodes := codes0,
        stmBootloaderVersion := ver, ttyPort := port, ttyRx := rx, ttyActive := act,
        identity := ident, wire := wire } =
      Res.ret (some (Err.wrap ErrTimeout "could not init stm chip"))
        (Close
          { pinPower := some true, pinBoot0 := some true, pinBoot1 := some false,
            stmCmdCodes := codes0, stmBootloaderVersion := ver,
            ttyPort := some { writesLeft := none },
            ttyRx := [], ttyActive := true, identity := ident,
            wire := wire ++ [[0x7f]] }).state := by
    simp only [Open, setupPins, hpower, hboot0, hboot1, hserial, hin, stmInit, enterSTBL,
      stmCmdSync, stmExecCmd, stmCommandSequence_Sync, hw, hr, Wrap]
  exact ⟨_, hopen, (Close_wire _).2, by rw [(Close_wire _).1], by rw [(Close_frame _).1]⟩

theorem timedLoop_shape (tmo : Nat) (tie : Nat → Bool) :
    ∀ (k now : Nat) (acc : List Nat) (q : List (Nat × Nat)),
      (ReadN.timedLoop tmo tie k now acc q).1 = Except.error ErrTimeout ∨
      (k ≤ q.length ∧
        ReadN.timedLoop tmo tie k now acc q =
          (Except.ok (acc ++ (q.take k).map Prod.snd), q.drop k)) := by
  intro k
  induction k with
  | zero =>
    intro now acc q
    right
    simp [ReadN.timedLoop]
  | succ k ih =>
    intro now acc q
    cases q with
    | nil => left; rfl
    | cons p q =>
      obtain ⟨a, b⟩ := p
      unfold ReadN.timedLoop
      have hrec := ih (Nat.max a now) (acc ++ [b]) q
      split
      · rcases hrec with h | ⟨h1, h2⟩
        · left; exact h
        · right
          refine ⟨by simpa using h1, ?_⟩
          rw [h2]
          simp
      · split
        · left; rfl
        · split
          · rcases hrec with h | ⟨h1, h2⟩
            · left; exact h
            · right
              refine ⟨by simpa using h1, ?_⟩
              rw [h2]
              simp
          · left; rfl

theorem timedLoop_chain_ok (tmo : Nat) (tie : Nat → Bool) :
    ∀ (k now : Nat) (acc : List Nat) (q : List (Nat × Nat)) (t : Nat → Nat),
      t 0 = now →
      (∀ i, i < k → ∃ a b, q[i]? = some (a, b) ∧
        Nat.max a (t i) < t i + tmo ∧ t (i + 1) = Nat.max a (t i)) →
      ReadN.timedLoop tmo tie k now acc q =
        (Except.ok (acc ++ (q.take k).map Prod.snd), q.drop k) := by
  intro k
  induction k with
  | zero =>
    intro now acc q t _ _
    simp [ReadN.timedLoop]
  | succ k ih =>
    intro now acc q t h0 h
    obtain ⟨a, b, hq, hlt, hnext⟩ := h 0 (Nat.succ_pos k)
    cases q with
    | nil => simp at hq
    | cons p q =>
      simp only [List.getElem?_cons_zero, Option.some.injEq] at hq
      subst hq
      rw [h0] at hlt hnext
      unfold ReadN.timedLoop
      rw [if_pos hlt]
      rw [ih (Nat.max a now) (acc ++ [b]) q (fun i => t (i + 1)) hnext
        (fun i hi => by
          obtain ⟨a2, b2, hq2, hlt2, hnext2⟩ := h (i + 1) (Nat.succ_lt_succ hi)
          exact ⟨a2, b2, by simpa using hq2, hlt2, hnext2⟩)]
      simp

theorem timedLoop_chain_timeout (tmo : Nat) (tie : Nat → Bool) :
    ∀ (j k now : Nat) (acc : List Nat) (q : List (Nat × Nat)) (t : Nat → Nat),
      j < k → t 0 = now →
      (∀ i, i < j → ∃ a b, q[i]? = some (a, b) ∧
        Nat.max a (t i) < t i + tmo ∧ t (i + 1) = Nat.max a (t i)) →
      (∃ a b, q[j]? = some (a, b) ∧ t j + tmo < Nat.max a (t j)) →
      (ReadN.timedLoop tmo tie k now acc q).1 = Except.error ErrTimeout := by
  intro j
  induction j with
  | zero =>
    intro k now acc q t hk h0 _ hlate
    obtain ⟨a, b, hq, hlt⟩ := hlate
    cases q with
    | nil => simp at hq
    | cons p q =>
      simp only [List.getElem?_cons_zero, Option.some.injEq] at hq
      subst hq
      rw [h0] at hlt
      obtain ⟨k, rfl⟩ : ∃ k2, k = k2 + 1 := ⟨k - 1, by omega⟩
      unfold ReadN.timedLoop
      rw [if_neg (by omega), if_pos hlt]
  | succ j ih =>
    intro k now acc q t hk h0 h hlate
    obtain ⟨a, b, hq, hlt, hnext⟩ := h 0 (Nat.succ_pos j)
    cases q with
    | nil => simp at hq
    | cons p q =>
      simp only [List.getElem?_cons_zero, Option.some.injEq] at hq
      subst hq
      rw [h0] at hlt hnext
      obtain ⟨k, rfl⟩ : ∃ k2, k = k2 + 1 := ⟨k - 1, by omega⟩
      unfold ReadN.timedLoop
      rw [if_pos hlt]
      exact ih k (Nat.max a now) (acc ++ [b]) q (fun i => t (i + 1)) (by omega) hnext
        (fun i hi => by
          obtain ⟨a2, b2, hq2, hlt2, hnext2⟩ := h (i + 1) (Nat.succ_lt_succ hi)
          exact ⟨a2, b2, by simpa using hq2, hlt2, hnext2⟩)
        (by
          obtain ⟨a2, b2, hq2, hlt2⟩ := hlate
          exact ⟨a2, b2, by simpa using hq2, hlt2⟩)

theorem ReadN_timed_eq (n : Int) (tmo : Nat) (tie : Nat → Bool) (now : Nat)
    (q : List (Nat × Nat)) (mc : Microcontroller)
    (hopen : IsOpen mc = true) (hn : 0 ≤ n) :
    ReadN.timed n tmo tie now q mc =
      Res.ret (ReadN.timedLoop tmo tie n.toNat now [] q).1
        { mc with ttyRx := (ReadN.timedLoop tmo tie n.toNat now [] q).2.map Prod.snd } := by
  unfold ReadN.timed
  simp only [hopen, Bool.not_true, Bool.false_eq_true, if_false]
  rw [if_neg (not_lt.mpr hn)]

theorem ReadN_timed_ok_of_loop (n : Int) (tmo : Nat) (tie : Nat → Bool) (now : Nat)
    (q : List (Nat × Nat)) (mc : Microcontroller)
    (hopen : IsOpen mc = true) (hn : 0 ≤ n) (hq : q.map Prod.snd = mc.ttyRx)
    (h : ReadN.timedLoop tmo tie n.toNat now [] q =
      (Except.ok ([] ++ (q.take n.toNat).map Prod.snd), q.drop n.toNat)) :
    ReadN.timed n tmo tie now q mc =
      Res.ret (Except.ok (mc.ttyRx.take n.toNat))
        { mc with ttyRx := mc.ttyRx.drop n.toNat } := by
  rw [ReadN_timed_eq n tmo tie now q mc hopen hn, h]
  simp only [List.nil_append, List.map_take, List.map_drop, hq]

theorem ReadN_timed_timeout_of_loop (n : Int) (tmo : Nat) (tie : Nat → Bool) (now : Nat)
    (q : List (Nat × Nat)) (mc : Microcontroller)
    (hopen : IsOpen mc = true) (hn : 0 ≤ n)
    (h : (ReadN.timedLoop tmo tie n.toNat now [] q).1 = Except.error ErrTimeout) :
    ∃ mc1, ReadN.timed n tmo tie now q mc = Res.ret (Except.error ErrTimeout) mc1 := by
  rw [ReadN_timed_eq n tmo tie now q mc hopen hn, h]
  exact ⟨_, rfl⟩

theorem length_of_getElem (q : List (Nat × Nat)) (k : Nat)
    (h : ∀ i, i < k → ∃ a b, q[i]? = some (a, b)) : k ≤ q.length := by
  by_contra hlt
  obtain ⟨a, b, hab⟩ := h q.length (by omega)
  simp at hab

/-! # The claims -/

/-! ## C1 -/

/-- Claim C1, as amended.  For a payload `bs` of length `L < 2 ^ 53` (every
slice a Go program can hold) and every base address `addr`, on an open session
whose port accepts every write and whose device answers ACK to every step,
`stmFlash` (which is what `FlashPayload` runs on an open session) returns no
error and sends exactly: the Erase command frame and the erase-all sentinel
`[0xFF, 0x00]`, then, for `i = 0, 1, ..., ceil(L/256) - 1` in ascending order,
one WriteMemory exchange made of the WriteMemory command frame, the address
frame of `(addr + i * 256) mod 2 ^ 32`, and the data frame of the bytes
`bs[i*256 .. min(L, (i+1)*256))`.  For `L = 0` the range is empty and only the
erase is sent.  It consumes exactly the `2 + 3 * ceil(L/256)` ACK bytes. -/
theorem stmFlash_writes_segments (bs : List Nat) (addr : Nat) (rest : List Nat)
    (mc : Microcontroller) (w : World)
    (hlen : bs.length < 2 ^ 53)
    (hp : mc.ttyPort = some { writesLeft := none })
    (hrx : mc.ttyRx = List.replicate (2 + 3 * ((bs.length + 255) / 256)) b_STM_ACK ++ rest) :
    FlashPayload w bs addr mc = stmFlash bs addr mc ∧
    stmFlash bs addr mc =
      Res.ret none { mc with
        ttyRx := rest,
        wire := mc.wire ++
          [[(mc.stmCmdCodes.get CommandCodeErase).getD 0x43,
            (mc.stmCmdCodes.get CommandCodeErase).getD 0x43 ^^^ 0xff],
           [0xff, 0x00]] ++
          (List.range ((bs.length + 255) / 256)).flatMap (fun i =>
            [[(mc.stmCmdCodes.get CommandCodeWriteMemory).getD 0x31,
              (mc.stmCmdCodes.get CommandCodeWriteMemory).getD 0x31 ^^^ 0xff],
             bigEndian32 ((addr + i * 256) % 2 ^ 32) ++
               [checksum (bigEndian32 ((addr + i * 256) % 2 ^ 32))],
             [((bs.take (Nat.min bs.length ((i + 1) * 256))).drop (i * 256)).length - 1] ++
               (bs.take (Nat.min bs.length ((i + 1) * 256))).drop (i * 256) ++
               [checksum
                 ([((bs.take (Nat.min bs.length ((i + 1) * 256))).drop (i * 256)).length - 1] ++
                   (bs.take (Nat.min bs.length ((i + 1) * 256))).drop (i * 256))]]) } := by
  refine ⟨FlashPayload_open w bs addr mc (IsOpen_of_port _ _ hp), ?_⟩
  rw [replicate_two_add] at hrx
  have he := stmCmdEraseMemory_ack _ _ mc hp (stmCommandSequence_Erase mc) hrx
  have hloop := stmFlash_loop_ack bs addr _ (List.range ((bs.length + 255) / 256)) rest
    { mc with
      ttyRx := List.replicate (3 * ((bs.length + 255) / 256)) b_STM_ACK ++ rest,
      wire := mc.wire ++ [[(mc.stmCmdCodes.get CommandCodeErase).getD 0x43,
            (mc.stmCmdCodes.get CommandCodeErase).getD 0x43 ^^^ 0xff], [0xff, 0x00]] }
    hp
    ((stmCommandSequence_congr _ _ _ rfl).trans (stmCommandSequence_WriteMemory mc))
    (by
      intro i hi
      rw [List.mem_range] at hi
      omega)
    (by simp)
  simp only [stmFlash, he, nseg_eq _ hlen, hloop]

/-- Scenario B, an instance of the theorem for C1: 300 bytes of `0xAA` at
`0x08000000` give one erase and exactly two WriteMemory exchanges, at
`0x08000000` with 256 data bytes and at `0x08000100` with 44 data bytes. -/
theorem stmFlash_writes_segments_witness :
    stmFlash (List.replicate 300 0xAA) 0x08000000 (openSession (List.replicate 8 b_STM_ACK)) =
      Res.ret none { openSession [] with
        wire := [[0x43, 0xbc], [0xff, 0x00],
                 [0x31, 0xce], [0x08, 0x00, 0x00, 0x00, 0x08],
                 [255] ++ List.replicate 256 0xAA ++ [255],
                 [0x31, 0xce], [0x08, 0x00, 0x01, 0x00, 0x09],
                 [43] ++ List.replicate 44 0xAA ++ [43]] } := by
  have h := (stmFlash_writes_segments (List.replicate 300 0xAA) 0x08000000 []
    (openSession (List.replicate 8 b_STM_ACK))
    { gpioPower := none, gpioBoot0 := none, gpioBoot1 := none,
      serial := Except.ok { writesLeft := none }, incoming := [] }
    (by decide) rfl (by decide)).2
  rw [h]
  decide

/-- Claim C1 fails as stated.  With 257 bytes at base address `0xFFFFFF00` and a
device that ACKs every step, `stmFlash` succeeds and the address frame of the
WriteMemory exchange `i = 1` (entry 6 of the log) is `00 00 00 00` with
checksum `00`: the exchange goes to address 0, and no reading of its four
address bytes gives `addr + i * 256 = 0x100000000`. -/
theorem stmFlash_address_wraps :
    ∃ mc1,
      stmFlash (List.replicate 257 0xAA) 0xFFFFFF00
        (openSession (List.replicate 8 b_STM_ACK)) = Res.ret none mc1 ∧
      mc1.wire.length = 8 ∧
      mc1.wire[6]? = some [0x00, 0x00, 0x00, 0x00, 0x00] ∧
      ¬ ∃ a3 a2 a1 a0 cs : Nat,
          mc1.wire[6]? = some [a3, a2, a1, a0, cs] ∧
          a3 * 2 ^ 24 + a2 * 2 ^ 16 + a1 * 2 ^ 8 + a0 = 0xFFFFFF00 + 1 * 256 := by
  refine ⟨(stmFlash (List.replicate 257 0xAA) 0xFFFFFF00
    (openSession (List.replicate 8 b_STM_ACK))).state, by decide, by decide, by decide, ?_⟩
  rintro ⟨a3, a2, a1, a0, cs, hframe, hsum⟩
  have h6 : (stmFlash (List.replicate 257 0xAA) 0xFFFFFF00
      (openSession (List.replicate 8 b_STM_ACK))).state.wire[6]? =
        some [0x00, 0x00, 0x00, 0x00, 0x00] := by decide
  rw [h6] at hframe
  simp only [Option.some.injEq, List.cons.injEq, and_true] at hframe
  obtain ⟨h3, h2, h1, h0, _⟩ := hframe
  subst h3 h2 h1 h0
  simp at hsum

/-! ## C2 -/

/-- Claim C2.  For a data block `d` with `1 <= len(d) <= 256`,
`stmWriteWithNAndChecksum d` writes the single buffer made of the length byte
`len(d) - 1`, then `d`, then the checksum; and when the buffer it wrote is what
the receive queue starts with, `stmReadWithLength` returns exactly `d`, having
consumed the length byte and the `len(d)` data bytes: the checksum byte is the
first byte left unread (the only one when nothing follows the frame). -/
theorem framing_round_trip (d rest : List Nat) (mc mc2 : Microcontroller)
    (h1 : 1 ≤ d.length) (h2 : d.length ≤ 256)
    (hp : mc.ttyPort = some { writesLeft := none })
    (hopen : IsOpen mc2 = true)
    (hwire : mc2.ttyRx = (stmWriteWithNAndChecksum d mc).state.wire.getLastD [] ++ rest) :
    stmWriteWithNAndChecksum d mc =
      Res.ret none { mc with
        wire := mc.wire ++ [[d.length - 1] ++ d ++ [checksum ([d.length - 1] ++ d)]] } ∧
    stmReadWithLength mc2 =
      Res.ret (Except.ok d) { mc2 with ttyRx := checksum ([d.length - 1] ++ d) :: rest } := by
  have hw : stmWriteWithNAndChecksum d mc =
      Res.ret none { mc with
        wire := mc.wire ++ [[d.length - 1] ++ d ++ [checksum ([d.length - 1] ++ d)]] } := by
    simp only [stmWriteWithNAndChecksum, stmWriteWithChecksum, lengthByte_eq _ h1 h2]
    exact Write_one _ mc hp
  refine ⟨hw, ?_⟩
  rw [hw] at hwire
  simp [Res.state] at hwire
  exact stmReadWithLength_ok d _ mc2 hopen h1 (by simpa using hwire)

/-- An instance of the theorem for C2: the block `10 20 30` is framed as
`02 10 20 30 02` and read back, leaving the checksum byte `02`. -/
theorem framing_round_trip_witness :
    stmWriteWithNAndChecksum [0x10, 0x20, 0x30] (openSession []) =
      Res.ret none { openSession [] with wire := [[0x02, 0x10, 0x20, 0x30, 0x02]] } ∧
    stmReadWithLength (openSession [0x02, 0x10, 0x20, 0x30, 0x02]) =
      Res.ret (Except.ok [0x10, 0x20, 0x30]) (openSession [0x02]) :=
  framing_round_trip [0x10, 0x20, 0x30] [] (openSession [])
    (openSession [0x02, 0x10, 0x20, 0x30, 0x02]) (by decide) (by decide) rfl rfl (by decide)

/-! ## C3 -/

/-- Claim C3.  For every byte sequence `b`, `checksum b` is the XOR fold of the
bytes of `b` starting from `0x00`; the checksum of the empty sequence is `0x00`
and the checksum of the one-byte sequence `[x]` is `x`. -/
theorem checksum_is_xor_fold (b : List Nat) (x : Nat) :
    checksum b = b.foldl (fun s y => s ^^^ y) 0x00 ∧
    checksum [] = 0x00 ∧
    checksum [x] = x :=
  ⟨checksum_eq_foldl b, rfl, rfl⟩

/-! ## C4 -/

/-- Claim C4.  For a 32-bit address `a` and a data block `d` with
`1 <= len(d) <= 256`, on an open session whose port accepts every write and
whose device answers ACK three times, `stmCmdWriteMemory a d` returns no error
and appends to the log exactly three buffers, in this order: the WriteMemory
command frame `[op, op XOR 0xFF]` (`op` the discovered opcode, else the default
`0x31`); the four bytes of `a`, most significant first, followed by their XOR;
and the byte `len(d) - 1`, the bytes of `d`, and the XOR of that byte with all
bytes of `d`. -/
theorem stmCmdWriteMemory_frames (a : Nat) (d rest : List Nat) (mc : Microcontroller)
    (ha : a < 2 ^ 32) (h1 : 1 ≤ d.length) (h2 : d.length ≤ 256)
    (hp : mc.ttyPort = some { writesLeft := none })
    (hrx : mc.ttyRx = b_STM_ACK :: b_STM_ACK :: b_STM_ACK :: rest) :
    stmCmdWriteMemory a d mc =
      Res.ret none { mc with
        ttyRx := rest,
        wire := mc.wire ++
          [[(mc.stmCmdCodes.get CommandCodeWriteMemory).getD 0x31,
            (mc.stmCmdCodes.get CommandCodeWriteMemory).getD 0x31 ^^^ 0xff],
           [a / 2 ^ 24, a / 2 ^ 16 % 256, a / 2 ^ 8 % 256, a % 256,
            a / 2 ^ 24 ^^^ a / 2 ^ 16 % 256 ^^^ a / 2 ^ 8 % 256 ^^^ a % 256],
           [d.length - 1] ++ d ++ [d.foldl (fun s y => s ^^^ y) (d.length - 1)]] } := by
  have h := stmCmdWriteMemory_ack a d _ rest mc hp (stmCommandSequence_WriteMemory mc) hrx
  rw [h, lengthByte_eq _ h1 h2, bigEndian32_eq a ha]
  simp [checksum_cons]

/-- An instance of the theorem for C4: two bytes written at `0x08000100`. -/
theorem stmCmdWriteMemory_frames_witness :
    stmCmdWriteMemory 0x08000100 [0xAA, 0xBB] (openSession [0x79, 0x79, 0x79]) =
      Res.ret none { openSession [] with
        wire := [[0x31, 0xce], [0x08, 0x00, 0x01, 0x00, 0x09], [0x01, 0xAA, 0xBB, 0x10]] } := by
  have h := stmCmdWriteMemory_frames 0x08000100 [0xAA, 0xBB] []
    (openSession [0x79, 0x79, 0x79]) (by decide) (by decide) (by decide) rfl rfl
  rw [h]
  decide

/-! ## C5 -/

/-- Claim C5.  For a command `c` other than Sync whose opcode `op` is the entry
of the discovered table, or, when the discovered table has no entry for `c`,
the entry of the built-in default table, `stmCommandSequence c` is
`[op, op XOR 0xFF]`; a discovered entry is used whatever the default is.
`stmCommandSequence Sync` is the single byte `0x7F` whatever the tables hold.
With an empty discovered table each of the 11 commands resolves to its default
opcode. -/
theorem stmCommandSequence_resolves (mc : Microcontroller) (c : CommandCode) (op : Nat)
    (hc : c ≠ CommandCodeSync)
    (hop : mc.stmCmdCodes.get c = some op ∨
      (mc.stmCmdCodes.get c = none ∧ defaultCmdCodeMap.get c = some op)) :
    stmCommandSequence mc c = some [op, op ^^^ 0xff] ∧
    stmCommandSequence mc CommandCodeSync = some [0x7f] ∧
    (mc.stmCmdCodes = [] →
      stmCommandSequence mc CommandCodeGet = some [0x00, 0x00 ^^^ 0xff] ∧
      stmCommandSequence mc CommandCodeGetVersion = some [0x01, 0x01 ^^^ 0xff] ∧
      stmCommandSequence mc CommandCodeGetID = some [0x02, 0x02 ^^^ 0xff] ∧
      stmCommandSequence mc CommandCodeReadMemory = some [0x11, 0x11 ^^^ 0xff] ∧
      stmCommandSequence mc CommandCodeGo = some [0x21, 0x21 ^^^ 0xff] ∧
      stmCommandSequence mc CommandCodeWriteMemory = some [0x31, 0x31 ^^^ 0xff] ∧
      stmCommandSequence mc CommandCodeErase = some [0x43, 0x43 ^^^ 0xff] ∧
      stmCommandSequence mc CommandCodeWriteProtect = some [0x63, 0x63 ^^^ 0xff] ∧
      stmCommandSequence mc CommandCodeWriteUnprotect = some [0x73, 0x73 ^^^ 0xff] ∧
      stmCommandSequence mc CommandCodeReadoutProtect = some [0x82, 0x82 ^^^ 0xff] ∧
      stmCommandSequence mc CommandCodeReadoutUnprotect = some [0x92, 0x92 ^^^ 0xff]) := by
  refine ⟨?_, ?_, ?_⟩
  · unfold stmCommandSequence
    rw [if_neg hc]
    rcases hop with h | ⟨h1, h2⟩
    · simp [h, Nat.xor_comm]
    · simp [h1, h2, Nat.xor_comm]
  · simp [stmCommandSequence, b_STM_SYNC]
  · intro hempty
    unfold stmCommandSequence
    rw [hempty]
    decide

/-- An instance of the theorem for C5: a discovered WriteMemory opcode `0x32`
overrides the default `0x31`, while Erase, not discovered, uses the default. -/
theorem stmCommandSequence_resolves_witness :
    stmCommandSequence { openSession [] with stmCmdCodes := [(CommandCodeWriteMemory, 0x32)] }
        CommandCodeWriteMemory = some [0x32, 0xcd] ∧
    stmCommandSequence { openSession [] with stmCmdCodes := [(CommandCodeWriteMemory, 0x32)] }
        CommandCodeErase = some [0x43, 0xbc] :=
  ⟨(stmCommandSequence_resolves
      { openSession [] with stmCmdCodes := [(CommandCodeWriteMemory, 0x32)] }
      CommandCodeWriteMemory 0x32 (by decide) (Or.inl (by decide))).1,
   (stmCommandSequence_resolves
      { openSession [] with stmCmdCodes := [(CommandCodeWriteMemory, 0x32)] }
      CommandCodeErase 0x43 (by decide) (Or.inr (by decide))).1⟩

/-! ## C6 -/

/-- Claim C6.  On an open session, when the byte `b` is delivered,
`stmReadAckOrNack` consumes it and returns success exactly when `b = 0x79`,
`ErrSTMNACK` exactly when `b = 0x1F`, and `ErrSTMFailedToAck` for every other
byte; when no byte arrives it returns the timeout error of the read,
`ErrTimeout`.  The three errors are pairwise distinct. -/
theorem stmReadAckOrNack_classifies (b : Nat) (rest : List Nat) (mc mc0 : Microcontroller)
    (hopen : IsOpen mc = true) (hrx : mc.ttyRx = b :: rest)
    (hopen0 : IsOpen mc0 = true) (hrx0 : mc0.ttyRx = []) :
    (∃ r, stmReadAckOrNack mc = Res.ret r { mc with ttyRx := rest } ∧
      (r = none ↔ b = 0x79) ∧
      (r = some ErrSTMNACK ↔ b = 0x1f) ∧
      (b ≠ 0x79 → b ≠ 0x1f → r = some ErrSTMFailedToAck)) ∧
    stmReadAckOrNack mc0 = Res.ret (some ErrTimeout) mc0 ∧
    ErrSTMNACK ≠ ErrSTMFailedToAck ∧ ErrSTMNACK ≠ ErrTimeout ∧
    ErrSTMFailedToAck ≠ ErrTimeout := by
  refine ⟨⟨_, stmReadAckOrNack_cons b rest mc hopen hrx, ?_, ?_, ?_⟩,
    stmReadAckOrNack_nil mc0 hopen0 hrx0, by decide, by decide, by decide⟩
  · by_cases h1 : b = b_STM_ACK
    · simp [h1, b_STM_ACK]
    · by_cases h2 : b = b_STM_NACK
      · simp [h2, b_STM_NACK, b_STM_ACK]
      · have h1' : b ≠ 0x79 := h1
        simp [h1, h2, h1']
  · by_cases h1 : b = b_STM_ACK
    · simp [h1, b_STM_ACK]
    · by_cases h2 : b = b_STM_NACK
      · simp [h2, b_STM_NACK, b_STM_ACK]
      · have h2' : b ≠ 0x1f := h2
        have hne : ErrSTMFailedToAck ≠ ErrSTMNACK := by decide
        simp [h1, h2, h2', hne]
  · intro h1 h2
    have h1' : b ≠ b_STM_ACK := h1
    have h2' : b ≠ b_STM_NACK := h2
    simp [h1', h2']

/-- An instance of the theorem for C6: a NACK byte, and an empty queue. -/
theorem stmReadAckOrNack_classifies_witness :
    stmReadAckOrNack (openSession [0x1f, 0x79]) = Res.ret (some ErrSTMNACK) (openSession [0x79]) ∧
    stmReadAckOrNack (openSession []) = Res.ret (some ErrTimeout) (openSession []) := by
  have h := stmReadAckOrNack_classifies 0x1f [0x79] (openSession [0x1f, 0x79]) (openSession [])
    rfl rfl rfl rfl
  obtain ⟨⟨r, hr, _, hnack, _⟩, h0, _⟩ := h
  have hr2 : r = some ErrSTMNACK := hnack.mpr rfl
  subst hr2
  exact ⟨hr, h0⟩

/-! ## C7 -/

/-- Claim C7.  For every payload and base address, on a session whose port
accepts every write, if the device answers NACK to the Erase command frame, or
ACK to it and NACK to the erase-all sentinel, then `stmFlash` returns the error
`ErrSTMNACK` wrapped with "could not erase memory", whose cause is
`ErrSTMNACK`; `FlashPayload` returns the same error, both on this open session
and on a closed session whose `Open` led to it; and the log has grown by
nothing but the Erase command frame (and the sentinel, in the second case), so
no WriteMemory exchange was issued. -/
theorem stmFlash_erase_nack (bs : List Nat) (addr : Nat) (rest : List Nat)
    (mc : Microcontroller) (w : World)
    (hp : mc.ttyPort = some { writesLeft := none })
    (hrx : mc.ttyRx = b_STM_NACK :: rest ∨ mc.ttyRx = b_STM_ACK :: b_STM_NACK :: rest) :
    ∃ mc1,
      stmFlash bs addr mc =
        Res.ret (some (Err.wrap ErrSTMNACK "could not erase memory")) mc1 ∧
      (Err.wrap ErrSTMNACK "could not erase memory").Cause = ErrSTMNACK ∧
      FlashPayload w bs addr mc =
        Res.ret (some (Err.wrap ErrSTMNACK "could not erase memory")) mc1 ∧
      (∀ mc0, IsOpen mc0 = false → Open w mc0 = Res.ret none mc →
        FlashPayload w bs addr mc0 =
          Res.ret (some (Err.wrap ErrSTMNACK "could not erase memory")) (Close mc1).state ∧
        (Close mc1).state.wire = mc1.wire) ∧
      mc1.ttyRx = rest ∧
      (mc.ttyRx = b_STM_NACK :: rest →
        mc1.wire = mc.wire ++
          [[(mc.stmCmdCodes.get CommandCodeErase).getD 0x43,
            (mc.stmCmdCodes.get CommandCodeErase).getD 0x43 ^^^ 0xff]]) ∧
      (mc.ttyRx = b_STM_ACK :: b_STM_NACK :: rest →
        mc1.wire = mc.wire ++
          [[(mc.stmCmdCodes.get CommandCodeErase).getD 0x43,
            (mc.stmCmdCodes.get CommandCodeErase).getD 0x43 ^^^ 0xff],
           [0xff, 0x00]]) := by
  rcases hrx with h | h
  · have hf := erase_nack_at_command bs addr rest mc hp h
    refine ⟨_, hf, rfl, ?_, ?_, rfl, fun _ => rfl, ?_⟩
    · rw [FlashPayload_open w bs addr mc (IsOpen_of_port _ _ hp), hf]
    · intro mc0 hc ho
      exact ⟨FlashPayload_closed w bs addr mc0 mc _ _ hc ho hf, (Close_wire _).1⟩
    · intro h2
      rw [h] at h2
      exact absurd (List.cons.inj h2).1 (by decide)
  · have hf := erase_nack_at_sentinel bs addr rest mc hp h
    refine ⟨_, hf, rfl, ?_, ?_, rfl, ?_, fun _ => rfl⟩
    · rw [FlashPayload_open w bs addr mc (IsOpen_of_port _ _ hp), hf]
    · intro mc0 hc ho
      exact ⟨FlashPayload_closed w bs addr mc0 mc _ _ hc ho hf, (Close_wire _).1⟩
    · intro h2
      rw [h] at h2
      exact absurd (List.cons.inj h2).1 (by decide)

/-- Scenario C, an instance of the theorem for C7: the device ACKs the Erase
command and NACKs the sentinel. -/
theorem stmFlash_erase_nack_witness :
    ∃ mc1,
      stmFlash (List.replicate 300 0xAA) 0x08000000 (openSession [0x79, 0x1f]) =
        Res.ret (some (Err.wrap ErrSTMNACK "could not erase memory")) mc1 ∧
      mc1.ttyRx = [] ∧
      mc1.wire = [[0x43, 0xbc], [0xff, 0x00]] := by
  obtain ⟨mc1, hf, _, _, _, hrx, _, hw⟩ :=
    stmFlash_erase_nack (List.replicate 300 0xAA) 0x08000000 [] (openSession [0x79, 0x1f])
      (goodWorld []) rfl (Or.inr rfl)
  exact ⟨mc1, hf, hrx, (hw rfl).trans (by decide)⟩

/-! ## C8 -/

/-- Claim C8.  Let `L < 2 ^ 53` be the payload length and `i < ceil(L/256)`.
If the erase succeeds and leaves the session `s 0`, the WriteMemory exchange of
every block `j < i` succeeds and takes `s j` to `s (j + 1)`, and the exchange
of block `i` fails with error `e` leaving the session `mc3`, then `stmFlash`
returns `e` wrapped with the message "could not write segment i", whose cause
is the cause of `e`, and stops in `mc3`, the state the failed exchange left:
no exchange for a later block is issued. -/
theorem stmFlash_block_failure (bs : List Nat) (addr i : Nat) (e : Err)
    (mc mc3 : Microcontroller) (s : Nat → Microcontroller)
    (hlen : bs.length < 2 ^ 53) (hi : i < (bs.length + 255) / 256)
    (herase : stmCmdEraseMemory mc = Res.ret none (s 0))
    (hprev : ∀ j, j < i →
      stmCmdWriteMemory ((addr + j * 256) % 2 ^ 32)
        ((bs.take (Nat.min bs.length ((j + 1) * 256))).drop (j * 256)) (s j) =
          Res.ret none (s (j + 1)))
    (hfail : stmCmdWriteMemory ((addr + i * 256) % 2 ^ 32)
        ((bs.take (Nat.min bs.length ((i + 1) * 256))).drop (i * 256)) (s i) =
          Res.ret (some e) mc3) :
    stmFlash bs addr mc =
      Res.ret (some (Err.wrap e ("could not write segment " ++ toString i))) mc3 ∧
    (Err.wrap e ("could not write segment " ++ toString i)).Cause = e.Cause := by
  refine ⟨?_, by simp [Err.Cause]⟩
  obtain ⟨tl, htl⟩ := range_split ((bs.length + 255) / 256) i hi
  have hchain := stmFlash_loop_chain bs addr s i (by
    intro j hj
    refine ⟨_, block_eq bs j (by omega), ?_⟩
    rw [segAddr_eq]
    exact hprev j hj)
  have hbi := block_eq bs i (by omega)
  simp only [stmFlash, herase, nseg_eq _ hlen, htl]
  rw [stmFlash_loop_append bs addr (i :: tl) (List.range i) (s 0) (s i) hchain]
  simp only [stmFlash.loop, hbi, segAddr_eq, hfail, Wrap]

/-- An instance of the theorem for C8: 257 bytes, the device ACKs the erase and
block 0 and NACKs the WriteMemory command of block 1. -/
theorem stmFlash_block_failure_witness :
    stmFlash (List.replicate 257 0xAA) 0x08000000
        (openSession [0x79, 0x79, 0x79, 0x79, 0x79, 0x1f]) =
      Res.ret
        (some (Err.wrap (Err.wrap ErrSTMNACK "err exec write mem") "could not write segment 1"))
        { openSession [] with
          wire := [[0x43, 0xbc], [0xff, 0x00],
                   [0x31, 0xce], [0x08, 0x00, 0x00, 0x00, 0x08],
                   [255] ++ List.replicate 256 0xAA ++ [255],
                   [0x31, 0xce]] } :=
  (stmFlash_block_failure (List.replicate 257 0xAA) 0x08000000 1
    (Err.wrap ErrSTMNACK "err exec write mem")
    (openSession [0x79, 0x79, 0x79, 0x79, 0x79, 0x1f])
    { openSession [] with
          wire := [[0x43, 0xbc], [0xff, 0x00],
                   [0x31, 0xce], [0x08, 0x00, 0x00, 0x00, 0x08],
                   [255] ++ List.replicate 256 0xAA ++ [255],
                   [0x31, 0xce]] }
    (fun j =>
      (stmFlash.loop (List.replicate 257 0xAA) 0x08000000 (List.range j)
        (stmCmdEraseMemory (openSession [0x79, 0x79, 0x79, 0x79, 0x79, 0x1f])).state).state)
    (by decide) (by decide) (by decide)
    (by
      intro j hj
      obtain rfl : j = 0 := by omega
      decide)
    (by decide)).1

/-! ## C9 -/

/-- Claim C9.  For a payload of length `L < 2 ^ 53` and every loop index
`i < nseg L`, the slice `bs[offset:endIndex]` that `stmFlash` passes to
`stmCmdWriteMemory` is in range and has between 1 and 256 bytes, so the length
byte `byte(len - 1)` of `stmWriteWithNAndChecksum` is `len - 1`, unwrapped. -/
theorem stmFlash_block_bounds (bs : List Nat) (i : Nat)
    (hlen : bs.length < 2 ^ 53) (hi : i < nseg bs.length) :
    ∃ blk, stmFlash.block bs i = some blk ∧
      1 ≤ blk.length ∧ blk.length ≤ 256 ∧
      (((blk.length : Int) - 1) % 256).toNat = blk.length - 1 ∧
      ∀ mc, stmWriteWithNAndChecksum blk mc =
        Write [[blk.length - 1] ++ blk ++ [checksum ([blk.length - 1] ++ blk)]] mc := by
  rw [nseg_eq _ hlen] at hi
  have h : i * 256 < bs.length := by omega
  have hl := block_length bs i h
  refine ⟨_, block_eq bs i h, hl.1, hl.2, lengthByte_eq _ hl.1 hl.2, ?_⟩
  intro mc
  simp only [stmWriteWithNAndChecksum, stmWriteWithChecksum, lengthByte_eq _ hl.1 hl.2]

/-- An instance of the theorem for C9: the second block of a 300-byte
payload. -/
theorem stmFlash_block_bounds_witness :
    ∃ blk, stmFlash.block (List.replicate 300 0xAA) 1 = some blk ∧
      1 ≤ blk.length ∧ blk.length ≤ 256 ∧
      (((blk.length : Int) - 1) % 256).toNat = blk.length - 1 ∧
      ∀ mc, stmWriteWithNAndChecksum blk mc =
        Write [[blk.length - 1] ++ blk ++ [checksum ([blk.length - 1] ++ blk)]] mc :=
  stmFlash_block_bounds (List.replicate 300 0xAA) 1 (by decide) (by decide)

/-! ## C10 -/

/-- Claim C10.  When the pins and the serial port can be acquired, the port
accepts every write, and the device ACKs Sync, ACKs the Get command, sends the
length byte `m - 1` and a payload `p` of `m >= 1` bytes, and then an ACK,
`Open` returns no error and leaves a session whose bootloader version is
`p[0]`, whose opcode table maps `CommandCode(i)` to `p[i+1]` for every
`i < m - 1` and agrees with the table before the call at every other command,
and which is open.  It has sent the Sync byte and the Get command frame. -/
theorem Open_populates_opcodes (p rest : List Nat) (w : World) (mc : Microcontroller)
    (hm : 1 ≤ p.length)
    (hpower : w.gpioPower = none) (hboot0 : w.gpioBoot0 = none) (hboot1 : w.gpioBoot1 = none)
    (hserial : w.serial = Except.ok { writesLeft := none })
    (hin : w.incoming =
      b_STM_ACK :: b_STM_ACK :: (p.length - 1) :: (p ++ b_STM_ACK :: rest)) :
    ∃ mc1, Open w mc = Res.ret none mc1 ∧
      p[0]? = some mc1.stmBootloaderVersion ∧
      (∀ i : Nat, i + 1 < p.length → mc1.stmCmdCodes.get (Int.ofNat i) = p[i + 1]?) ∧
      (∀ c : Int, (c < 0 ∨ (p.length : Int) - 1 ≤ c) →
        mc1.stmCmdCodes.get c = mc.stmCmdCodes.get c) ∧
      IsOpen mc1 = true ∧
      mc1.ttyRx = rest ∧
      mc1.wire = mc.wire ++
        [[0x7f], [(mc.stmCmdCodes.get CommandCodeGet).getD 0x00,
                  (mc.stmCmdCodes.get CommandCodeGet).getD 0x00 ^^^ 0xff]] :=
  Open_handshake p rest w mc hm hpower hboot0 hboot1 hserial hin

/-- Scenario A, an instance of the theorem for C10: version `0x10` followed by
three opcodes. -/
theorem Open_populates_opcodes_witness :
    Open (goodWorld [0x79, 0x79, 0x03, 0x10, 0x00, 0x01, 0x02, 0x79])
        { openSession [] with ttyPort := none, ttyActive := false } =
      Res.ret none
        { openSession [] with
          stmBootloaderVersion := 0x10,
          stmCmdCodes := [(2, 0x02), (1, 0x01), (0, 0x00)],
          wire := [[0x7f], [0x00, 0xff]] } := by
  obtain ⟨mc1, hopen, _⟩ := Open_populates_opcodes [0x10, 0x00, 0x01, 0x02] []
    (goodWorld [0x79, 0x79, 0x03, 0x10, 0x00, 0x01, 0x02, 0x79])
    { openSession [] with ttyPort := none, ttyActive := false }
    (by decide) rfl rfl rfl rfl rfl
  rw [hopen]
  have hs : (Open (goodWorld [0x79, 0x79, 0x03, 0x10, 0x00, 0x01, 0x02, 0x79])
        { openSession [] with ttyPort := none, ttyActive := false }).state =
      { openSession [] with
          stmBootloaderVersion := 0x10,
          stmCmdCodes := [(2, 0x02), (1, 0x01), (0, 0x00)],
          wire := [[0x7f], [0x00, 0xff]] } := by decide
  rw [hopen] at hs
  exact congrArg _ hs

/-! ## C11 -/

/-- Claim C11, as amended.  The discovered opcode table is written only by the
Get exchange of `Open`.  In every session state `Close`, `Reset`, `Write` and
`ReadN` leave the table as it was, and so do `FlashPayload` and `Identify` on
an open session, whatever the device answers.  An `Open` whose device ACKs Sync
and Get and sends the payload `p` stores `p[i+1]` as the entry of
`CommandCode(i)` for every `i < len(p) - 1`, whatever the entry was before. -/
theorem opcode_table_written_only_by_Open (w : World) (bs : List Nat) (addr : Nat)
    (bufs : List (List Nat)) (n : Int) (tmo : Nat) (mc mc0 : Microcontroller)
    (hopen : IsOpen mc = true) :
    (Close mc0).state.stmCmdCodes = mc0.stmCmdCodes ∧
    (Reset mc0).stmCmdCodes = mc0.stmCmdCodes ∧
    (Write bufs mc0).state.stmCmdCodes = mc0.stmCmdCodes ∧
    (ReadN n tmo mc0).state.stmCmdCodes = mc0.stmCmdCodes ∧
    (FlashPayload w bs addr mc).state.stmCmdCodes = mc.stmCmdCodes ∧
    (Identify w mc).state.stmCmdCodes = mc.stmCmdCodes ∧
    (∀ p rest : List Nat, 1 ≤ p.length →
      w.gpioPower = none → w.gpioBoot0 = none → w.gpioBoot1 = none →
      w.serial = Except.ok { writesLeft := none } →
      w.incoming = b_STM_ACK :: b_STM_ACK :: (p.length - 1) :: (p ++ b_STM_ACK :: rest) →
      ∃ mc1, Open w mc0 = Res.ret none mc1 ∧
        (∀ i : Nat, i + 1 < p.length → mc1.stmCmdCodes.get (Int.ofNat i) = p[i + 1]?)) := by
  refine ⟨(Close_frame mc0).1, rfl, ?_, ?_, ?_, ?_, ?_⟩
  · exact codes_of_frame _ _ (frame_of_write _ _ (Write_frame bufs mc0))
  · exact codes_of_frame _ _ (frame_of_read _ _ (ReadN_frame n tmo mc0))
  · rw [FlashPayload_open w bs addr mc hopen]
    exact codes_of_frame _ _ (stmFlash_frame bs addr mc)
  · by_cases hid : mc.identity = ""
    · rw [(Identify_open_state w mc hid hopen).1]
      exact codes_of_frame _ _ (stmCmdGetId_frame mc)
    · unfold Identify
      rw [if_pos (by simpa using hid)]
      rfl
  · intro p rest hm h1 h2 h3 h4 h5
    obtain ⟨mc1, ho, _, hc, _⟩ := Open_handshake p rest w mc0 hm h1 h2 h3 h4 h5
    exact ⟨mc1, ho, hc⟩

/-- An instance of the theorem for C11: a discovered Erase opcode `0x44` is
still there after `FlashPayload` and after `Identify` on an open session. -/
theorem opcode_table_written_only_by_Open_witness :
    (FlashPayload (goodWorld []) [0xAA] 0x08000000
      { openSession [0x79, 0x79, 0x79, 0x79, 0x79] with
        stmCmdCodes := [(CommandCodeErase, 0x44)] }).state.stmCmdCodes =
      [(CommandCodeErase, 0x44)] ∧
    (Identify (goodWorld [])
      { openSession [0x79, 0x00, 0x04, 0x79] with
        stmCmdCodes := [(CommandCodeErase, 0x44)] }).state.stmCmdCodes =
      [(CommandCodeErase, 0x44)] :=
  ⟨(opcode_table_written_only_by_Open (goodWorld []) [0xAA] 0x08000000 [] 0 0
      { openSession [0x79, 0x79, 0x79, 0x79, 0x79] with
        stmCmdCodes := [(CommandCodeErase, 0x44)] } closedSession rfl).2.2.2.2.1,
   (opcode_table_written_only_by_Open (goodWorld []) [] 0 [] 0 0
      { openSession [0x79, 0x00, 0x04, 0x79] with
        stmCmdCodes := [(CommandCodeErase, 0x44)] } closedSession rfl).2.2.2.2.2.1⟩

/-- Claim C11 fails as stated.  A session made by `NewMicrocontroller` is
opened against a device whose Get response gives `0x02` for GetID, closed, and
opened again against a device whose Get response gives `0x03`: the entry for
GetID, once `0x02`, is `0x03` afterwards. -/
theorem reopen_changes_opcode :
    ∃ mc1 mc2 mc3,
      NewMicrocontroller (goodWorld []) = Except.ok closedSession ∧
      Open (goodWorld [0x79, 0x79, 0x03, 0x10, 0x00, 0x01, 0x02, 0x79]) closedSession =
        Res.ret none mc1 ∧
      mc1.stmCmdCodes.get CommandCodeGetID = some 0x02 ∧
      Close mc1 = Res.ret none mc2 ∧
      Open (goodWorld [0x79, 0x79, 0x03, 0x10, 0x00, 0x01, 0x03, 0x79]) mc2 =
        Res.ret none mc3 ∧
      mc3.stmCmdCodes.get CommandCodeGetID = some 0x03 :=
  ⟨(Open (goodWorld [0x79, 0x79, 0x03, 0x10, 0x00, 0x01, 0x02, 0x79]) closedSession).state,
   (Close (Open (goodWorld [0x79, 0x79, 0x03, 0x10, 0x00, 0x01, 0x02, 0x79])
      closedSession).state).state,
   (Open (goodWorld [0x79, 0x79, 0x03, 0x10, 0x00, 0x01, 0x03, 0x79])
      (Close (Open (goodWorld [0x79, 0x79, 0x03, 0x10, 0x00, 0x01, 0x02, 0x79])
        closedSession).state).state).state,
   rfl, by decide, by decide, by decide, by decide, by decide⟩

/-! ## C12 -/

/-- Claim C12.  After an `Identify` that returned the string `s` with no error,
every later `Identify` on the session it left returns `s` with no error and
leaves the session exactly as it was: nothing is written to the device, so no
second GetID exchange takes place.  The string `s` is not empty. -/
theorem Identify_twice (w w2 : World) (mc mc1 : Microcontroller) (s : String)
    (h : Identify w mc = Res.ret (s, none) mc1) :
    Identify w2 mc1 = Res.ret (s, none) mc1 ∧
    (Identify w2 mc1).state.wire = mc1.wire ∧
    s ≠ "" := by
  obtain ⟨h1, h2⟩ := Identify_success w mc mc1 s h
  have hret : Identify w2 mc1 = Res.ret (s, none) mc1 := by
    unfold Identify
    rw [if_pos (by rw [h1]; exact h2), h1]
  exact ⟨hret, by rw [hret]; rfl, h2⟩

/-- Scenario D, an instance of the theorem for C12: the first call opens the
link, runs one GetID exchange (command frame `02 fd`), and returns `STM_0410`;
the second call, against a silent world, returns the same string and state. -/
theorem Identify_twice_witness :
    Identify
        (goodWorld [0x79, 0x79, 0x02, 0x10, 0x00, 0x01, 0x79, 0x79, 0x01, 0x04, 0x10, 0x79])
        closedSession =
      Res.ret ("STM_0410", none)
        { closedSession with
          pinPower := none, pinBoot0 := none, pinBoot1 := none,
          stmCmdCodes := [(1, 0x01), (0, 0x00)], stmBootloaderVersion := 0x10,
          identity := "STM_0410", wire := [[0x7f], [0x00, 0xff], [0x02, 0xfd]] } ∧
    Identify (goodWorld [])
        { closedSession with
          pinPower := none, pinBoot0 := none, pinBoot1 := none,
          stmCmdCodes := [(1, 0x01), (0, 0x00)], stmBootloaderVersion := 0x10,
          identity := "STM_0410", wire := [[0x7f], [0x00, 0xff], [0x02, 0xfd]] } =
      Res.ret ("STM_0410", none)
        { closedSession with
          pinPower := none, pinBoot0 := none, pinBoot1 := none,
          stmCmdCodes := [(1, 0x01), (0, 0x00)], stmBootloaderVersion := 0x10,
          identity := "STM_0410", wire := [[0x7f], [0x00, 0xff], [0x02, 0xfd]] } := by
  have h1 : Identify
        (goodWorld [0x79, 0x79, 0x02, 0x10, 0x00, 0x01, 0x79, 0x79, 0x01, 0x04, 0x10, 0x79])
        closedSession =
      Res.ret ("STM_0410", none)
        { closedSession with
          pinPower := none, pinBoot0 := none, pinBoot1 := none,
          stmCmdCodes := [(1, 0x01), (0, 0x00)], stmBootloaderVersion := 0x10,
          identity := "STM_0410", wire := [[0x7f], [0x00, 0xff], [0x02, 0xfd]] } := by
    decide
  exact ⟨h1, (Identify_twice _ (goodWorld []) _ _ _ h1).1⟩

/-! ## C13 -/

/-- Claim C13.  On a session with no cached identity, an `Identify` that returns
an error (from `Open` or from any step of the GetID exchange) returns the empty
string and leaves the cached identity empty.  The next `Identify` therefore
runs the GetID exchange again: on the session left open with a port that
accepts writes it sends the GetID command frame, and on the session left closed
it does so on the session its `Open` produces. -/
theorem Identify_failure_not_cached (w : World) (mc mc1 : Microcontroller) (s : String)
    (e : Err) (hid : mc.identity = "") (h : Identify w mc = Res.ret (s, some e) mc1) :
    s = "" ∧ mc1.identity = "" ∧
    (∀ w2, mc1.ttyPort = some { writesLeft := none } →
      (Identify w2 mc1).state.wire =
        mc1.wire ++ [[(mc1.stmCmdCodes.get CommandCodeGetID).getD 0x02,
                      (mc1.stmCmdCodes.get CommandCodeGetID).getD 0x02 ^^^ 0xff]]) ∧
    (∀ w2 mc2, IsOpen mc1 = false → Open w2 mc1 = Res.ret none mc2 →
      mc2.ttyPort = some { writesLeft := none } →
      (Identify w2 mc1).state.wire =
        mc2.wire ++ [[(mc2.stmCmdCodes.get CommandCodeGetID).getD 0x02,
                      (mc2.stmCmdCodes.get CommandCodeGetID).getD 0x02 ^^^ 0xff]]) := by
  obtain ⟨hs, hid1⟩ := Identify_failure w mc mc1 s e hid h
  refine ⟨hs, hid1, ?_, ?_⟩
  · intro w2 hp
    rw [(Identify_open_state w2 mc1 hid1 (IsOpen_of_port _ _ hp)).2.2]
    exact stmCmdGetId_wire mc1 hp
  · intro w2 mc2 hclosed hopen hp
    rw [(Identify_closed_state w2 mc1 mc2 hid1 hclosed hopen).1]
    exact stmCmdGetId_wire mc2 hp

/-- An instance of the theorem for C13: the device NACKs the GetID command; the
next call sends the GetID command frame once more. -/
theorem Identify_failure_not_cached_witness :
    Identify (goodWorld []) (openSession [0x1f]) =
      Res.ret ("", some ErrSTMNACK) { openSession [] with wire := [[0x02, 0xfd]] } ∧
    (Identify (goodWorld []) { openSession [] with wire := [[0x02, 0xfd]] }).state.wire =
      [[0x02, 0xfd], [0x02, 0xfd]] := by
  have h1 : Identify (goodWorld []) (openSession [0x1f]) =
      Res.ret ("", some ErrSTMNACK) { openSession [] with wire := [[0x02, 0xfd]] } := by
    decide
  exact ⟨h1, (Identify_failure_not_cached _ _ _ _ _ rfl h1).2.2.1 (goodWorld []) rfl⟩

/-! ## C14 -/

/-- Claim C14.  In every session state (open, closed, or left by a failed
`Open`) `Close` returns no error and leaves the session closed with the three
pins released; a second `Close` right after returns no error as well and leaves
that closed session unchanged. -/
theorem Close_idempotent (mc : Microcontroller) :
    ∃ mc1, Close mc = Res.ret none mc1 ∧ IsOpen mc1 = false ∧
      mc1.pinPower = none ∧ mc1.pinBoot0 = none ∧ mc1.pinBoot1 = none ∧
      Close mc1 = Res.ret none mc1 := by
  obtain ⟨pp, pb0, pb1, codes, ver, port, rx, act, ident, wire⟩ := mc
  cases port with
  | none => exact ⟨_, rfl, rfl, rfl, rfl, rfl, rfl⟩
  | some p => exact ⟨_, rfl, rfl, rfl, rfl, rfl, rfl⟩

/-! ## C15 -/

/-- Claim C15, as amended.  `Open` has no guard for an open session: a further
`Open` runs the whole sequence again.  When the pins and the port can be
acquired again and the device again ACKs Sync and Get and sends the same Get
payload `p`, the further `Open` returns no error and leaves the session open
with the same bootloader version and the same opcode-table entries, but the
receive queue is the rest of the new port's stream and the Sync byte and the
Get command frame have been sent once more.  Whenever a further `Open` that
has acquired the pins returns an error, it leaves the session closed; it does
so when the device does not answer: the Sync byte is sent, the read of its
acknowledgement times out, and `Open` returns that timeout wrapped with
"could not init stm chip". -/
theorem Open_again_repeats_handshake (p rest rest2 : List Nat) (w w2 : World)
    (mc : Microcontroller) (hm : 1 ≤ p.length)
    (hpower : w.gpioPower = none) (hboot0 : w.gpioBoot0 = none) (hboot1 : w.gpioBoot1 = none)
    (hserial : w.serial = Except.ok { writesLeft := none })
    (hin : w.incoming =
      b_STM_ACK :: b_STM_ACK :: (p.length - 1) :: (p ++ b_STM_ACK :: rest))
    (hpower2 : w2.gpioPower = none) (hboot02 : w2.gpioBoot0 = none)
    (hboot12 : w2.gpioBoot1 = none)
    (hserial2 : w2.serial = Except.ok { writesLeft := none })
    (hin2 : w2.incoming =
      b_STM_ACK :: b_STM_ACK :: (p.length - 1) :: (p ++ b_STM_ACK :: rest2)) :
    ∃ mc1 mc2,
      Open w mc = Res.ret none mc1 ∧ IsOpen mc1 = true ∧
      Open w2 mc1 = Res.ret none mc2 ∧ IsOpen mc2 = true ∧
      (∀ c : Int, mc2.stmCmdCodes.get c = mc1.stmCmdCodes.get c) ∧
      mc2.stmBootloaderVersion = mc1.stmBootloaderVersion ∧
      mc2.ttyRx = rest2 ∧
      mc2.wire = mc1.wire ++
        [[0x7f], [(mc1.stmCmdCodes.get CommandCodeGet).getD 0x00,
                  (mc1.stmCmdCodes.get CommandCodeGet).getD 0x00 ^^^ 0xff]] ∧
      (∀ w3 : World, w3.gpioPower = none → w3.gpioBoot0 = none → w3.gpioBoot1 = none →
        (∀ e mc3, Open w3 mc1 = Res.ret (some e) mc3 → IsOpen mc3 = false) ∧
        (w3.serial = Except.ok { writesLeft := none } → w3.incoming = [] →
          ∃ mc3,
            Open w3 mc1 =
              Res.ret (some (Err.wrap ErrTimeout "could not init stm chip")) mc3 ∧
            IsOpen mc3 = false ∧ mc3.wire = mc1.wire ++ [[0x7f]])) := by
  obtain ⟨mc1, ho1, hv1, hc1, _, hopen1, _, _⟩ :=
    Open_handshake p rest w mc hm hpower hboot0 hboot1 hserial hin
  obtain ⟨mc2, ho2, hv2, hc2, hother2, hopen2, hrx2, hwire2⟩ :=
    Open_handshake p rest2 w2 mc1 hm hpower2 hboot02 hboot12 hserial2 hin2
  refine ⟨mc1, mc2, ho1, hopen1, ho2, hopen2, ?_, ?_, hrx2, hwire2, ?_⟩
  · intro c
    by_cases hc : c < 0 ∨ (p.length : Int) - 1 ≤ c
    · exact hother2 c hc
    · have hc0 : 0 ≤ c := by omega
      have hlt : c.toNat + 1 < p.length := by omega
      have hcast : Int.ofNat c.toNat = c := Int.toNat_of_nonneg hc0
      have e1 := hc1 c.toNat hlt
      have e2 := hc2 c.toNat hlt
      rw [hcast] at e1 e2
      rw [e1, e2]
  · rw [hv1] at hv2
    exact (Option.some.inj hv2).symm
  · intro w3 hp3 hb03 hb13
    refine ⟨fun e mc3 h => Open_error_closes w3 mc1 mc3 e hp3 hb03 hb13 h, ?_⟩
    intro hs3 hin3
    obtain ⟨mc3, h1, h2, h3, _⟩ := Open_silent w3 mc1 hp3 hb03 hb13 hs3 hin3
    exact ⟨mc3, h1, h2, h3⟩

/-- An instance of the theorem for C15: two handshakes with the same Get
payload `10 00 01`, and a further `Open` against a device that stays silent. -/
theorem Open_again_repeats_handshake_witness :
    ∃ mc1 mc2 mc3,
      Open (goodWorld [0x79, 0x79, 0x02, 0x10, 0x00, 0x01, 0x79]) closedSession =
        Res.ret none mc1 ∧ IsOpen mc1 = true ∧
      Open (goodWorld [0x79, 0x79, 0x02, 0x10, 0x00, 0x01, 0x79, 0x55]) mc1 =
        Res.ret none mc2 ∧ IsOpen mc2 = true ∧
      mc2.ttyRx = [0x55] ∧
      mc2.wire = mc1.wire ++
        [[0x7f], [(mc1.stmCmdCodes.get CommandCodeGet).getD 0x00,
                  (mc1.stmCmdCodes.get CommandCodeGet).getD 0x00 ^^^ 0xff]] ∧
      Open (goodWorld []) mc1 =
        Res.ret (some (Err.wrap ErrTimeout "could not init stm chip")) mc3 ∧
      IsOpen mc3 = false := by
  obtain ⟨mc1, mc2, h1, h2, h3, h4, _, _, h7, h8, h9⟩ :=
    Open_again_repeats_handshake [0x10, 0x00, 0x01] [] [0x55]
      (goodWorld [0x79, 0x79, 0x02, 0x10, 0x00, 0x01, 0x79])
      (goodWorld [0x79, 0x79, 0x02, 0x10, 0x00, 0x01, 0x79, 0x55])
      closedSession (by decide) rfl rfl rfl rfl rfl rfl rfl rfl rfl rfl
  obtain ⟨mc3, h10, h11, _⟩ := (h9 (goodWorld []) rfl rfl rfl).2 rfl rfl
  exact ⟨mc1, mc2, mc3, h1, h2, h3, h4, h7, h8, h10, h11⟩

/-- Claim C15 fails as stated.  After a successful `Open`, a further `Open`
against the same device sends the Sync byte and the Get command frame again and
leaves a different session state; against a device that stays silent it
returns the timeout error wrapped with "could not init stm chip" and leaves
the session closed. -/
theorem Open_again_not_idempotent :
    ∃ mc1 mc2 mc3,
      Open (goodWorld [0x79, 0x79, 0x02, 0x10, 0x00, 0x01, 0x79]) closedSession =
        Res.ret none mc1 ∧ IsOpen mc1 = true ∧
      Open (goodWorld [0x79, 0x79, 0x02, 0x10, 0x00, 0x01, 0x79]) mc1 = Res.ret none mc2 ∧
      mc1.wire = [[0x7f], [0x00, 0xff]] ∧
      mc2.wire = [[0x7f], [0x00, 0xff], [0x7f], [0x00, 0xff]] ∧
      mc2 ≠ mc1 ∧
      Open (goodWorld []) mc1 =
        Res.ret (some (Err.wrap ErrTimeout "could not init stm chip")) mc3 ∧
      IsOpen mc3 = false :=
  ⟨(Open (goodWorld [0x79, 0x79, 0x02, 0x10, 0x00, 0x01, 0x79]) closedSession).state,
   (Open (goodWorld [0x79, 0x79, 0x02, 0x10, 0x00, 0x01, 0x79])
     (Open (goodWorld [0x79, 0x79, 0x02, 0x10, 0x00, 0x01, 0x79]) closedSession).state).state,
   (Open (goodWorld [])
     (Open (goodWorld [0x79, 0x79, 0x02, 0x10, 0x00, 0x01, 0x79]) closedSession).state).state,
   by decide, by decide, by decide, by decide, by decide, by decide, by decide, by decide⟩

/-! ## C16 -/

/-- Claim C16, as amended.  `FlashPayload` and `Identify` themselves leave the
link as they found it, whatever their outcome: in a run where the background
reader keeps running, the session they leave is open exactly when the session
they were given was open; on a closed session whose `Open` succeeds the work
runs on the opened session and the deferred `Close` closes it again.  The error
exit of the reader closes the session whenever it is taken, and no step of the
two methods (`Write`, `ReadN`, the erase, WriteMemory and GetID exchanges, the
loop of `stmFlash`) changes the open or closed status, so nothing reopens the
link afterwards.  In the run where the reader fails once the call has found
the session open, `FlashPayload` returns `ErrClosed` wrapped with "could not
erase memory" and `Identify` (with no cached identity) returns `ErrClosed`,
and the session is closed on return.  A session that was closed when the call
began is closed on return in that run too. -/
theorem link_status_and_reader (err : ReadFailure) (w : World) (bs : List Nat)
    (addr : Nat) (mc : Microcontroller) :
    IsOpen (FlashPayload w bs addr mc).state = IsOpen mc ∧
    IsOpen (Identify w mc).state = IsOpen mc ∧
    (∀ mc1, IsOpen mc = false → Open w mc = Res.ret none mc1 →
      IsOpen mc1 = true ∧
      (FlashPayload w bs addr mc).state = (Close (stmFlash bs addr mc1).state).state) ∧
    IsOpen (rx.onError err mc) = false ∧
    (∀ (mc1 : Microcontroller) (bufs : List (List Nat)) (n : Int) (tmo a : Nat)
        (d is : List Nat),
      IsOpen (Write bufs mc1).state = IsOpen mc1 ∧
      IsOpen (ReadN n tmo mc1).state = IsOpen mc1 ∧
      IsOpen (stmCmdEraseMemory mc1).state = IsOpen mc1 ∧
      IsOpen (stmCmdWriteMemory a d mc1).state = IsOpen mc1 ∧
      IsOpen (stmFlash.loop bs addr is mc1).state = IsOpen mc1 ∧
      IsOpen (stmFlash bs addr mc1).state = IsOpen mc1 ∧
      IsOpen (stmCmdGetId mc1).state = IsOpen mc1) ∧
    (IsOpen mc = true →
      FlashPayload.readerFails err w bs addr mc =
        Res.ret (some (Err.wrap ErrClosed "could not erase memory")) (rx.onError err mc)) ∧
    (IsOpen mc = true → mc.identity = "" →
      Identify.readerFails err w mc =
        Res.ret ("", some ErrClosed) (rx.onError err mc)) ∧
    (IsOpen mc = false →
      IsOpen (FlashPayload.readerFails err w bs addr mc).state = false ∧
      IsOpen (Identify.readerFails err w mc).state = false) := by
  obtain ⟨h1, h2, h3⟩ := facade_keeps_link_status w bs addr mc
  have hrx := rx_onError_outcome err mc
  refine ⟨h1, h2, h3, hrx.1, ?_, ?_, ?_, readerFails_closed_session err w bs addr mc⟩
  · intro mc1 bufs n tmo a d is
    exact ⟨isOpen_of_frame _ _ (frame_of_write _ _ (Write_frame bufs mc1)),
      isOpen_of_frame _ _ (frame_of_read _ _ (ReadN_frame n tmo mc1)),
      isOpen_of_frame _ _ (stmCmdEraseMemory_frame mc1),
      isOpen_of_frame _ _ (stmCmdWriteMemory_frame a d mc1),
      isOpen_of_frame _ _ (stmFlash_loop_frame bs addr is mc1),
      isOpen_of_frame _ _ (stmFlash_frame bs addr mc1),
      isOpen_of_frame _ _ (stmCmdGetId_frame mc1)⟩
  · intro hopen
    unfold FlashPayload.readerFails
    simp only [hopen, Bool.not_true, Bool.false_eq_true, if_false]
    exact stmFlash_closed bs addr _ hrx.1
  · intro hopen hid
    unfold Identify.readerFails
    rw [if_neg (by simp [hid])]
    simp only [hopen, Bool.not_true, Bool.false_eq_true, if_false]
    rw [stmCmdGetId_closed _ hrx.1]

/-- Instances of the theorem for C16: a flash that fails at the erase step on a
closed session (left closed) and on an open session (left open), and a flash
on an open session whose reader meets a "port closed" error. -/
theorem link_status_and_reader_witness :
    IsOpen (FlashPayload (goodWorld [0x79, 0x79, 0x00, 0x10, 0x79, 0x79, 0x1f])
      [0xAA] 0x08000000 closedSession).state = false ∧
    IsOpen (FlashPayload (goodWorld []) [0xAA] 0x08000000 (openSession [0x1f])).state = true ∧
    FlashPayload.readerFails ReadFailure.portClosed (goodWorld []) [0xAA] 0x08000000
        (openSession [0x79, 0x79]) =
      Res.ret (some (Err.wrap ErrClosed "could not erase memory"))
        (rx.onError ReadFailure.portClosed (openSession [0x79, 0x79])) :=
  ⟨(link_status_and_reader ReadFailure.other
      (goodWorld [0x79, 0x79, 0x00, 0x10, 0x79, 0x79, 0x1f])
      [0xAA] 0x08000000 closedSession).1,
   (link_status_and_reader ReadFailure.other (goodWorld []) [0xAA] 0x08000000
      (openSession [0x1f])).1,
   (link_status_and_reader ReadFailure.portClosed (goodWorld []) [0xAA] 0x08000000
      (openSession [0x79, 0x79])).2.2.2.2.2.1 rfl⟩

/-- Claim C16 fails as stated.  On an open session whose device would ACK every
step, a port read error of the background reader during the call makes the
reader run its deferred `Close`: `FlashPayload` and `Identify` then fail with
`ErrClosed` and the session, open when the call began, is closed when it
returns. -/
theorem reader_failure_closes_open_session :
    ∃ mc1 mc2,
      IsOpen (openSession [0x79, 0x79, 0x79, 0x79, 0x79]) = true ∧
      FlashPayload.readerFails ReadFailure.other (goodWorld []) [0xAA] 0x08000000
          (openSession [0x79, 0x79, 0x79, 0x79, 0x79]) =
        Res.ret (some (Err.wrap ErrClosed "could not erase memory")) mc1 ∧
      IsOpen mc1 = false ∧
      Identify.readerFails ReadFailure.other (goodWorld [])
          (openSession [0x79, 0x01, 0x04, 0x10, 0x79]) =
        Res.ret ("", some ErrClosed) mc2 ∧
      IsOpen mc2 = false :=
  ⟨rx.onError ReadFailure.other (openSession [0x79, 0x79, 0x79, 0x79, 0x79]),
   rx.onError ReadFailure.other (openSession [0x79, 0x01, 0x04, 0x10, 0x79]),
   by decide, by decide, by decide, by decide, by decide⟩

/-! ## C17 -/

/-- Claim C17, as amended.  On an open session, for every `n >= 0`, `ReadN`
arms a fresh timer of length `timeout` for every byte.  It returns either
`ErrTimeout` and no buffer or exactly the first `n` bytes of the receive queue
in arrival order, a buffer of length `n`: never a short buffer; when it
returns the bytes it agrees with the untimed `ReadN`.  It returns the `n` bytes
when each of them is available less than `timeout` after the wait for it began
(the start of the call for the first byte, the receipt of the previous byte
for the others; `t i` is the time at which wait `i` begins), in particular, for
a positive timeout, when the `n` bytes are already queued.  It returns
`ErrTimeout` when the wait for one of the bytes would last longer than
`timeout`, and when fewer than `n` bytes ever arrive.  When the first byte and
the timer of its wait are ready at the same instant, as with timeout 0 and a
byte already queued, and the `select` takes the timer, `ReadN` returns
`ErrTimeout` and consumes nothing. -/
theorem ReadN_timer_per_byte (n : Int) (tmo : Nat) (tie : Nat → Bool) (now : Nat)
    (q : List (Nat × Nat)) (mc : Microcontroller)
    (hopen : IsOpen mc = true) (hn : 0 ≤ n) (hq : q.map Prod.snd = mc.ttyRx) :
    ((∃ mc1, ReadN.timed n tmo tie now q mc = Res.ret (Except.error ErrTimeout) mc1) ∨
      (ReadN.timed n tmo tie now q mc =
          Res.ret (Except.ok (mc.ttyRx.take n.toNat))
            { mc with ttyRx := mc.ttyRx.drop n.toNat } ∧
        ((mc.ttyRx.take n.toNat).length : Int) = n ∧
        ReadN.timed n tmo tie now q mc = ReadN n tmo mc)) ∧
    (∀ t : Nat → Nat, t 0 = now →
      (∀ i, i < n.toNat → ∃ a b, q[i]? = some (a, b) ∧
        Nat.max a (t i) < t i + tmo ∧ t (i + 1) = Nat.max a (t i)) →
      ReadN.timed n tmo tie now q mc =
        Res.ret (Except.ok (mc.ttyRx.take n.toNat))
          { mc with ttyRx := mc.ttyRx.drop n.toNat }) ∧
    (∀ (t : Nat → Nat) (j : Nat), j < n.toNat → t 0 = now →
      (∀ i, i < j → ∃ a b, q[i]? = some (a, b) ∧
        Nat.max a (t i) < t i + tmo ∧ t (i + 1) = Nat.max a (t i)) →
      (∃ a b, q[j]? = some (a, b) ∧ t j + tmo < Nat.max a (t j)) →
      ∃ mc1, ReadN.timed n tmo tie now q mc = Res.ret (Except.error ErrTimeout) mc1) ∧
    (0 < tmo → (∀ i, i < n.toNat → ∃ a b, q[i]? = some (a, b) ∧ a ≤ now) →
      ReadN.timed n tmo tie now q mc = ReadN n tmo mc ∧
      ReadN n tmo mc =
        Res.ret (Except.ok (mc.ttyRx.take n.toNat))
          { mc with ttyRx := mc.ttyRx.drop n.toNat }) ∧
    (q.length < n.toNat →
      ∃ mc1, ReadN.timed n tmo tie now q mc = Res.ret (Except.error ErrTimeout) mc1) ∧
    (∀ a b rest, q = (a, b) :: rest → 0 < n → Nat.max a now = now + tmo →
      tie (n.toNat - 1) = false →
      ReadN.timed n tmo tie now q mc = Res.ret (Except.error ErrTimeout) mc) := by
  have hcast : Int.ofNat n.toNat = n := Int.toNat_of_nonneg hn
  have hlen : q.length = mc.ttyRx.length := by rw [← hq, List.length_map]
  refine ⟨?_, ?_, ?_, ?_, ?_, ?_⟩
  · rcases timedLoop_shape tmo tie n.toNat now [] q with h | ⟨h1, h2⟩
    · left
      exact ReadN_timed_timeout_of_loop n tmo tie now q mc hopen hn h
    · right
      have hok := ReadN_timed_ok_of_loop n tmo tie now q mc hopen hn hq h2
      have huntimed := ReadN_take_drop n.toNat tmo mc hopen (by omega)
      rw [hcast] at huntimed
      refine ⟨hok, ?_, ?_⟩
      · rw [List.length_take, Nat.min_eq_left (by omega)]
        exact hcast
      · rw [hok, huntimed]
  · intro t h0 h
    exact ReadN_timed_ok_of_loop n tmo tie now q mc hopen hn hq
      (timedLoop_chain_ok tmo tie n.toNat now [] q t h0 h)
  · intro t j hj h0 h hlate
    exact ReadN_timed_timeout_of_loop n tmo tie now q mc hopen hn
      (timedLoop_chain_timeout tmo tie j n.toNat now [] q t hj h0 h hlate)
  · intro htmo h
    have hk : n.toNat ≤ q.length := length_of_getElem q n.toNat (fun i hi => by
      obtain ⟨a, b, hab, _⟩ := h i hi
      exact ⟨a, b, hab⟩)
    have huntimed := ReadN_take_drop n.toNat tmo mc hopen (by omega)
    rw [hcast] at huntimed
    refine ⟨?_, huntimed⟩
    rw [huntimed]
    exact ReadN_timed_ok_of_loop n tmo tie now q mc hopen hn hq
      (timedLoop_chain_ok tmo tie n.toNat now [] q (fun _ => now) rfl (fun i hi => by
        obtain ⟨a, b, hab, hle⟩ := h i hi
        have hmax : Nat.max a now = now := Nat.max_eq_right hle
        have hlt : Nat.max a now < now + tmo := by rw [hmax]; omega
        exact ⟨a, b, hab, hlt, hmax.symm⟩))
  · intro hshort
    rcases timedLoop_shape tmo tie n.toNat now [] q with h | ⟨h1, _⟩
    · exact ReadN_timed_timeout_of_loop n tmo tie now q mc hopen hn h
    · omega
  · intro a b rest hcons hpos hsame htie
    obtain ⟨k, hk⟩ : ∃ k, n.toNat = k + 1 := ⟨n.toNat - 1, by omega⟩
    have hloop : ReadN.timedLoop tmo tie n.toNat now [] q =
        (Except.error ErrTimeout, q) := by
      rw [hk] at htie ⊢
      rw [hcons]
      unfold ReadN.timedLoop
      rw [if_neg (by omega), if_neg (by omega)]
      simp only [Nat.add_sub_cancel] at htie
      rw [htie]
      rfl
    rw [ReadN_timed_eq n tmo tie now q mc hopen hn, hloop]
    simp only [hq]

/-- Instances of the theorem for C17 with timeout 5 and bytes arriving at
times 0, 3 and 9: reading two bytes succeeds; reading three times out, because
the third byte arrives 6 after the second was read. -/
theorem ReadN_timer_per_byte_witness :
    ReadN.timed 2 5 (fun _ => false) 0 [(0, 0x10), (3, 0x20), (9, 0x30)]
        (openSession [0x10, 0x20, 0x30]) =
      Res.ret (Except.ok [0x10, 0x20]) (openSession [0x30]) ∧
    (∃ mc1, ReadN.timed 3 5 (fun _ => true) 0 [(0, 0x10), (3, 0x20), (9, 0x30)]
        (openSession [0x10, 0x20, 0x30]) = Res.ret (Except.error ErrTimeout) mc1) :=
  ⟨(ReadN_timer_per_byte 2 5 (fun _ => false) 0 [(0, 0x10), (3, 0x20), (9, 0x30)]
      (openSession [0x10, 0x20, 0x30]) rfl (by decide) rfl).2.1
      (fun i => if i = 0 then 0 else if i = 1 then 0 else 3) rfl
      (fun i hi => by
        have hi2 : i < 2 := hi
        interval_cases i
        · exact ⟨0, 0x10, rfl, by decide, by decide⟩
        · exact ⟨3, 0x20, rfl, by decide, by decide⟩),
   (ReadN_timer_per_byte 3 5 (fun _ => true) 0 [(0, 0x10), (3, 0x20), (9, 0x30)]
      (openSession [0x10, 0x20, 0x30]) rfl (by decide) rfl).2.2.1
      (fun i => if i = 0 then 0 else if i = 1 then 0 else 3) 2 (by decide) rfl
      (fun i hi => by
        interval_cases i
        · exact ⟨0, 0x10, rfl, by decide, by decide⟩
        · exact ⟨3, 0x20, rfl, by decide, by decide⟩)
      ⟨9, 0x30, rfl, by decide⟩⟩

/-- Claim C17 fails as stated.  With `n = 2`, timeout 5 and bytes arriving at
times 4 and 8, only one byte has arrived when the timeout has elapsed since the
call, yet `ReadN` returns both bytes and no `ErrTimeout`: the second wait
starts at time 4.  With timeout 0 and two bytes already queued, a `select` that
takes the timer, ready at the same instant as the byte, returns `ErrTimeout`
although `n` bytes had arrived. -/
theorem ReadN_timeout_not_for_the_call :
    ([(4, 0x10), (8, 0x20)].filter (fun p : Nat × Nat => p.1 ≤ 0 + 5)).length = 1 ∧
    ReadN.timed 2 5 (fun _ => false) 0 [(4, 0x10), (8, 0x20)] (openSession [0x10, 0x20]) =
      Res.ret (Except.ok [0x10, 0x20]) (openSession []) ∧
    ([(0, 0x10), (0, 0x20)].filter (fun p : Nat × Nat => p.1 ≤ 0)).length = 2 ∧
    ReadN.timed 2 0 (fun _ => false) 0 [(0, 0x10), (0, 0x20)] (openSession [0x10, 0x20]) =
      Res.ret (Except.error ErrTimeout) (openSession [0x10, 0x20]) := by
  refine ⟨by decide, rfl, by decide, rfl⟩

/-! ## C18 -/

/-- Claim C18, as amended.  `Write` called with no buffer panics with "must
provide at least one []byte" on every open session; on a closed session the
closed check comes first and it returns `ErrClosed`.  In no state does it
return success, and it leaves the session, the log included, as it was. -/
theorem Write_no_buffers (mc : Microcontroller) :
    (IsOpen mc = true → Write [] mc = Res.panic "must provide at least one []byte" mc) ∧
    (IsOpen mc = false → Write [] mc = Res.ret (some ErrClosed) mc) ∧
    (∀ mc1, Write [] mc ≠ Res.ret none mc1) ∧
    (Write [] mc).state = mc := by
  cases h : IsOpen mc <;> simp [Write, h, Res.state]

/-- Claim C18 fails as stated.  On the closed session `NewMicrocontroller`
makes, `Write` with no buffer returns `ErrClosed`; it does not panic. -/
theorem Write_nothing_on_closed_session :
    IsOpen closedSession = false ∧
    Write [] closedSession = Res.ret (some ErrClosed) closedSession ∧
    ∀ msg mc1, Write [] closedSession ≠ Res.panic msg mc1 := by
  refine ⟨rfl, rfl, ?_⟩
  intro msg mc1 h
  have h2 : Write [] closedSession = Res.ret (some ErrClosed) closedSession := rfl
  rw [h2] at h
  cases h

/-! ## C19 -/

/-- Claim C19.  On every closed session `ReadN n` returns `ErrClosed` and no
buffer for every `n` and timeout, and `Write` returns `ErrClosed` for every
list of buffers, in particular with at least one; both leave the session as it
was, so no byte is consumed from the receive queue and none is sent. -/
theorem closed_link_errors (n : Int) (tmo : Nat) (bs : List (List Nat)) (mc : Microcontroller)
    (hclosed : IsOpen mc = false) :
    ReadN n tmo mc = Res.ret (Except.error ErrClosed) mc ∧
    Write bs mc = Res.ret (some ErrClosed) mc ∧
    (ReadN n tmo mc).state.ttyRx = mc.ttyRx ∧
    (Write bs mc).state.wire = mc.wire := by
  simp [ReadN, Write, hclosed, Res.state]

/-- An instance of the theorem for C19: a closed session with a byte pending. -/
theorem closed_link_errors_witness :
    ReadN 3 STMTimeout { closedSession with ttyRx := [0x79] } =
      Res.ret (Except.error ErrClosed) { closedSession with ttyRx := [0x79] } ∧
    Write [[0x7f]] { closedSession with ttyRx := [0x79] } =
      Res.ret (some ErrClosed) { closedSession with ttyRx := [0x79] } :=
  ⟨(closed_link_errors 3 STMTimeout [[0x7f]] { closedSession with ttyRx := [0x79] } rfl).1,
   (closed_link_errors 3 STMTimeout [[0x7f]] { closedSession with ttyRx := [0x79] } rfl).2.1⟩

/-! ## C20 -/

/-- Claim C20.  In every session state, whatever the device sends, `stmCmdGet`
does not panic.  A payload `p` returned by `stmReadWithLength` has one byte
more than the length byte says, hence at least one byte, so `p[0]` is in
range, every `p[i+1]` with `i < len(p) - 1` is in range, and the loop that
stores the opcodes runs to its end. -/
theorem stmCmdGet_indices_in_range (mc : Microcontroller) :
    (∀ msg mc1, stmCmdGet mc ≠ Res.panic msg mc1) ∧
    (∀ p mc2, stmReadWithLength mc = Res.ret (Except.ok p) mc2 →
      1 ≤ p.length ∧
      (∃ n0 : Nat, mc.ttyRx.head? = some n0 ∧ p.length = n0 + 1) ∧
      p[0]? ≠ none ∧
      (∀ i : Nat, i + 1 < p.length → p[i + 1]? ≠ none) ∧
      (∀ mc3, ∃ codes : commandCodeMap,
        stmCmdGet.loop p (p.length - 1) 0 mc3 =
          Res.ret none { mc3 with stmCmdCodes := codes })) := by
  refine ⟨(stmCmdGet_outcome mc).1, ?_⟩
  intro p mc2 h
  obtain ⟨n0, hhead, hlen⟩ := stmReadWithLength_length mc mc2 p h
  refine ⟨by omega, ⟨n0, hhead, hlen⟩, ?_, ?_, ?_⟩
  · rw [List.getElem?_eq_getElem (by omega)]
    simp
  · intro i hi
    rw [List.getElem?_eq_getElem hi]
    simp
  · intro mc3
    obtain ⟨codes, hc, _, _⟩ := stmCmdGet_loop_ok p (p.length - 1) 0 mc3 (by omega)
    exact ⟨codes, hc⟩

/-- Instances for C20: a Get response with length byte 0 (a version and no
opcode), and one with twelve opcodes, one more than the commands known. -/
theorem stmCmdGet_indices_in_range_witness :
    stmCmdGet (openSession [0x79, 0x00, 0x10, 0x79]) =
      Res.ret none { openSession [] with
        stmBootloaderVersion := 0x10, wire := [[0x00, 0xff]] } ∧
    (∀ msg mc1, stmCmdGet (openSession [0x79, 0x00, 0x10, 0x79]) ≠ Res.panic msg mc1) ∧
    (stmCmdGet (openSession
      [0x79, 0x0c, 0x10, 0, 1, 2, 0x11, 0x21, 0x31, 0x43, 0x63, 0x73, 0x82, 0x92, 0xa1,
       0x79])).state.stmCmdCodes.get 11 = some 0xa1 :=
  ⟨by decide, (stmCmdGet_indices_in_range (openSession [0x79, 0x00, 0x10, 0x79])).1,
   by decide⟩

end Flash
